import Mathlib

/-!
# SSO login and authority filters (`auth/filter`)

A shallow embedding of `auth/filter/auth.go`, `auth/filter/models.go` and the
calls of `auth/filter/apiModels.go` that the properties below are about.

* Go maps with string keys are association lists (`GoMap`); a lookup takes the
  first binding and a store replaces the binding of its key.
* `int64` values are integers; the one subtraction the filters perform wraps
  at 64 bits (`sub64`).
* A request context is explicit state: the request, the session store and the
  list of writes made on the response, oldest first.
* The identity provider is an environment of reply functions (`Env`); every
  call made is appended to the `World` together with the number of clock
  readings taken so far.
* A panic is a result: `NewAuthService` returns the service or the message of
  the panic, a call of the API client ends in an `Outcome`, `LoadResource` may
  end in `Failure.panic`, and a filter that panics appends `Output.Panic`.
* `unicode.ToLower`, the case table behind `strings.ToLower`, is a parameter
  (`lower`) of every definition that lower-cases; the concrete scenarios use
  ASCII strings and the ASCII table.
-/

namespace filter

/-! ## Runtime helpers -/

/-- `strings.ToLower`: every rune of the string mapped by `unicode.ToLower`.
The Unicode case table is part of the Go runtime, not of the repository, and
is taken as the parameter `lower`. -/
def ToLower (lower : Char → Char) (s : String) : String := ⟨s.data.map lower⟩

/-- The case table on the ASCII range, where `unicode.ToLower` maps `A`..`Z` to
`a`..`z` and nothing else; used for the concrete scenarios, whose strings are
ASCII. -/
def asciiLower : Char → Char := Char.toLower

/-- Go map keyed by strings. -/
abbrev GoMap (α : Type) := List (String × α)

/-- Lookup `m[k]`: the value and the `ok` flag as an option. -/
def GoMap.get {α : Type} (m : GoMap α) (k : String) : Option α := List.lookup k m

/-- Store `m[k] = v`. -/
def GoMap.set {α : Type} (m : GoMap α) (k : String) (v : α) : GoMap α :=
  (k, v) :: m.filter (fun e => e.1 != k)

/-- Signed 64-bit wrap-around of an integer. -/
def wrap64 (x : Int) : Int := (x + 2 ^ 63) % 2 ^ 64 - 2 ^ 63

/-- Subtraction of two `int64` values. -/
def sub64 (a b : Int) : Int := wrap64 (a - b)

/-- Go `error`: `none` is `nil`, `some msg` an error with that message. -/
abbrev Error := Option String

/-! ## models.go: data model -/

structure Resource where
  Id : Int
  Description : String
  Data : String
deriving DecidableEq, Repr

structure Token where
  AccessToken : String
  ExpiresIn : Int
  RefreshToken : String
  Scope : String
  TokenType : String
  Error : String
  ErrorDescription : String
deriving DecidableEq, Repr

/-- The `User` record; `Resources` and `ResourceMap` hold non-nil resource
pointers, modelled by the resources themselves. -/
structure User where
  Id : String
  Fullname : String
  Dn : String
  Resources : List Resource
  ResourceMap : GoMap Resource
  CacheTime : Int
  Token : Token
deriving DecidableEq, Repr

/-! ## auth.go: configuration and request context -/

def SESSION_KEY_USER : String := "user"

structure Auth where
  ClientId : Int
  ClientSecret : String
  RedirectUri : String
  Host : String
  AutoLoadResource : Bool
  Scope : String
  CacheExpire : Int
  UrlControl : GoMap (List String)
deriving DecidableEq, Repr

/-- A value held by the session store (`interface{}`): the filters store a
`User`, `Login` stores a `Token`, anything else is `other`. -/
inductive SessionValue where
  | user (u : User)
  | token (t : Token)
  | other (v : String)
deriving DecidableEq, Repr

/-- The inbound request as the filters read it. -/
structure Input where
  Method : String
  URI : String
  Params : GoMap String
  Headers : GoMap String
deriving DecidableEq, Repr

/-- One write on the response. -/
inductive Output where
  | WriteHeader (status : Nat)
  | WriteString (body : String)
  | Redirect (status : Nat) (url : String)
  | Exception (code : Nat)
  | Panic (msg : String)
deriving DecidableEq, Repr

structure Context where
  Request : Input
  CruSession : GoMap SessionValue
  Written : List Output
deriving DecidableEq, Repr

/-- `ctx.Input.Query(key)`: the parameter, or the empty string. -/
def Input.Query (i : Input) (key : String) : String := (i.Params.get key).getD ""

/-- `ctx.Input.Header(key)`: the header, or the empty string. -/
def Input.Header (i : Input) (key : String) : String := (i.Headers.get key).getD ""

def Context.WriteHeader (ctx : Context) (status : Nat) : Context :=
  { ctx with Written := ctx.Written ++ [Output.WriteHeader status] }

def Context.WriteString (ctx : Context) (body : String) : Context :=
  { ctx with Written := ctx.Written ++ [Output.WriteString body] }

def Context.Redirect (ctx : Context) (status : Nat) (url : String) : Context :=
  { ctx with Written := ctx.Written ++ [Output.Redirect status url] }

/-- `beego.Exception(code, ctx)`: the framework's error handling. -/
def Context.Exception (ctx : Context) (code : Nat) : Context :=
  { ctx with Written := ctx.Written ++ [Output.Exception code] }

/-- A panic that leaves the filter: nothing after it runs, the framework's
recovery takes the request over. -/
def Context.Panic (ctx : Context) (msg : String) : Context :=
  { ctx with Written := ctx.Written ++ [Output.Panic msg] }

/-- `ctx.Input.CruSession.Set(key, v)`. -/
def Context.SessionSet (ctx : Context) (key : String) (v : SessionValue) : Context :=
  { ctx with CruSession := ctx.CruSession.set key v }

/-- `ctx.Input.CruSession.Get(SESSION_KEY_USER).(User)`. -/
def Context.SessionUser (ctx : Context) : Option User :=
  match ctx.CruSession.get SESSION_KEY_USER with
  | some (SessionValue.user u) => some u
  | _ => none

def StatusFound : Nat := 302

def XHR : String := "XMLHttpRequest"

/-- `CurrentUser`: the session user, or the default user when not logged in. -/
def CurrentUser (_a : Auth) (ctx : Context) : User :=
  match ctx.SessionUser with
  | some user => user
  | none =>
    { Id := " AnonymousUser", Fullname := "未登录用户", Dn := "", Resources := [],
      ResourceMap := [], CacheTime := 0,
      Token := { AccessToken := "", ExpiresIn := 0, RefreshToken := "", Scope := "",
                 TokenType := "", Error := "", ErrorDescription := "" } }

/-- The loop `for _, v := range resources` of `CheckAuthorityFilter`: `false`
at the first `v` missing from the resource map (the `break`), `true` when the
range is exhausted. -/
def rangeResources (m : GoMap Resource) : List String → Bool
  | [] => true
  | v :: rest => if (m.get v).isSome then rangeResources m rest else false

def DeniedMessage : String := "已授权，访问被拒绝，当前用户没有权限访问该内容"

/-- `CheckAuthorityFilter`. -/
def CheckAuthorityFilter (lower : Char → Char) (a : Auth) (ctx : Context)
    (routerPattern : String) : Context :=
  let urlPattern := ToLower lower routerPattern
  let method := ToLower lower ctx.Request.Method
  let key := method ++ ":" ++ urlPattern
  let user := CurrentUser a ctx
  let isPass := true
  let isPass :=
    if isPass then
      match a.UrlControl.get urlPattern with
      | some resources => rangeResources user.ResourceMap resources
      | none => isPass
    else isPass
  let isPass :=
    if isPass then
      match a.UrlControl.get key with
      | some resources => rangeResources user.ResourceMap resources
      | none => isPass
    else isPass
  if !isPass then
    if ctx.Request.Header "x-requested-with" = XHR then
      (ctx.WriteHeader 403).WriteString DeniedMessage
    else
      ctx.Exception 403
  else ctx

/-! ## net/url: query strings -/

def hexDigit (n : Nat) : Char := "0123456789ABCDEF".data.getD n '0'

/-- Escaping of one character in a query component: a space becomes `+`,
unreserved characters stay, every other byte of the UTF-8 encoding becomes
`%XX`. -/
def escapeChar (c : Char) : List Char :=
  if c = ' ' then ['+']
  else if c.isAlphanum || c = '-' || c = '_' || c = '.' || c = '~' then [c]
  else (String.utf8EncodeChar c).flatMap
    (fun b => ['%', hexDigit (b.toNat / 16), hexDigit (b.toNat % 16)])

/-- `url.QueryEscape`. -/
def QueryEscape (s : String) : String := ⟨s.data.flatMap escapeChar⟩

/-- `url.Values`: each key with its values in the order added. -/
abbrev Values := GoMap (List String)

/-- `Values.Add`. -/
def Values.Add (v : Values) (key value : String) : Values :=
  GoMap.set v key ((GoMap.get v key).getD [] ++ [value])

/-- Byte-wise order on keys. -/
def keyLE (a b : String) : Bool := !decide (b.data < a.data)

def sortedInsert (k : String) : List String → List String
  | [] => [k]
  | x :: xs => if keyLE k x then k :: x :: xs else x :: sortedInsert k xs

def sortKeys (ks : List String) : List String := ks.foldr sortedInsert []

/-- `Values.Encode`: `key=value` pairs, escaped, sorted by key, joined by `&`. -/
def Values.Encode (v : Values) : String :=
  String.intercalate "&"
    ((sortKeys (v.map Prod.fst)).flatMap (fun k =>
      ((GoMap.get v k).getD []).map (fun x => QueryEscape k ++ "=" ++ QueryEscape x)))

/-- `strconv.FormatInt(n, 10)`. -/
def FormatInt (n : Int) : String := toString n

/-! ## The identity provider and the clock -/

/-- `controllers.OK`. -/
def OK : Int := 0

/-- `controllers.ResponseBody`, with the `data` member seen through the decoder
the caller runs on it. -/
structure ResponseBody (δ : Type) where
  ResCode : Int
  ResMsg : String
  Data : δ
deriving DecidableEq, Repr

/-- The `resourceMap` member of a user payload. -/
inductive MapMember where
  | absent
  | null
  | object (entries : GoMap Resource)
deriving DecidableEq, Repr

/-- What `json.Unmarshal(userJson, u)` finds in the `data` of `/api/user`: the
members that decode (a member that is absent, null or ill-typed leaves a string
or number field as it was), and whether some member was ill-typed. The token
is tagged `json:"-"` and never read. Null elements of `resource` and null
values of `resourceMap` are left out: no code reads through these pointers
(the loop of `LoadResource` runs over the list it has just decoded). -/
structure UserData where
  id : Option String
  fullname : Option String
  dn : Option String
  resource : Option (List Resource)
  resourceMap : MapMember
  cacheTime : Option Int
  illTyped : Bool
deriving DecidableEq, Repr

/-- What `json.Unmarshal(resourcesJson, &u.Resources)` finds in the `data` of
`/api/userResources`: a decoded list without a null element; or an error after
which the slice holds what was decoded before it (`none`: the slice was not
touched); or a list that decodes without error and holds a null element, that
is a nil pointer, after the elements `before`. -/
inductive ResourcesData where
  | decoded (rs : List Resource)
  | failed (left : Option (List Resource))
  | withNull (before : List Resource) (after : List (Option Resource))
deriving DecidableEq, Repr

/-- How a call that returns an `error` ends when it does not end well: with
an error returned, or in a panic. -/
inductive Failure where
  | error (msg : String)
  | panic (msg : String)
deriving DecidableEq, Repr

def NilDereference : String := "invalid memory address or nil pointer dereference"

/-- A request sent to the provider. -/
inductive Call where
  | Post (url : String)
  | Get (url : String) (authorization : String)
  | Delete (url : String)
deriving DecidableEq, Repr

/-- What the filters have done to the outside so far: the provider calls,
oldest first, and the number of clock readings. -/
structure World where
  Calls : List Call
  Reads : Nat
deriving DecidableEq, Repr

/-- The outside world: the clock (by reading number) and the provider's replies
(by the number of earlier calls and the request). `PostToken` gives the token
as `ToJSON` left it and the error of `ToJSON`; `Revoke` gives the status code
of the response or a transport error. -/
structure Env where
  Now : Nat → Int
  PostToken : Nat → String → Token × Error
  GetUser : Nat → String → String → Except String (ResponseBody UserData)
  GetUserResources : Nat → String → String → Except String (ResponseBody ResourcesData)
  Revoke : Nat → String → Except String Nat

def World.record (w : World) (c : Call) : World := { w with Calls := w.Calls ++ [c] }

/-- `time.Now().Unix()`. -/
def World.now (w : World) (env : Env) : Int × World :=
  (env.Now w.Reads, { w with Reads := w.Reads + 1 })

/-! ## models.go: `Init` and `LoadResource` -/

/-- The effect of `json.Unmarshal(userJson, u)` on `u`. -/
def UserData.unmarshal (d : UserData) (u : User) : User :=
  { u with
    Id := d.id.getD u.Id
    Fullname := d.fullname.getD u.Fullname
    Dn := d.dn.getD u.Dn
    Resources := d.resource.getD u.Resources
    ResourceMap :=
      match d.resourceMap with
      | MapMember.absent => u.ResourceMap
      | MapMember.null => []
      | MapMember.object entries => entries.foldl (fun m e => GoMap.set m e.1 e.2) u.ResourceMap
    CacheTime := d.cacheTime.getD u.CacheTime }

/-- `User.Init`: the user after the call, the error returned and the world. -/
def User.Init (u : User) (env : Env) (w : World) (auth : Auth) : User × Error × World :=
  let url := auth.Host ++ "/api/user"
  let authorization := u.Token.TokenType ++ " " ++ u.Token.AccessToken
  let w1 := w.record (Call.Get url authorization)
  match env.GetUser w.Calls.length url authorization with
  | Except.error err => (u, some err, w1)
  | Except.ok res =>
    if res.ResCode ≠ OK then (u, some res.ResMsg, w1)
    else if res.Data.illTyped then (res.Data.unmarshal u, some "res data error", w1)
    else (res.Data.unmarshal u, none, w1)

/-- The loop of `LoadResource` that fills the fresh map. -/
def buildResourceMap (rs : List Resource) : GoMap Resource :=
  rs.foldl (fun m v => GoMap.set m v.Data v) []

/-- The same loop over a slice that may hold nil pointers: `none` when
`v.Data` is read through a nil pointer. -/
def fillResourceMap : List (Option Resource) → GoMap Resource → Option (GoMap Resource)
  | [], m => some m
  | none :: _, _ => none
  | some v :: rest, m => fillResourceMap rest (GoMap.set m v.Data v)

/-- `User.LoadResource`: the user after the call, how the call ended (`none`:
a nil error) and the world. After a panic the user is the one passed in; the
caller never reads it. -/
def User.LoadResource (u : User) (env : Env) (w : World) (auth : Auth) :
    User × Option Failure × World :=
  let url := auth.Host ++ "/api/userResources"
  let authorization := u.Token.TokenType ++ " " ++ u.Token.AccessToken
  let w1 := w.record (Call.Get url authorization)
  match env.GetUserResources w.Calls.length url authorization with
  | Except.error err => (u, some (Failure.error err), w1)
  | Except.ok res =>
    if res.ResCode ≠ OK then (u, some (Failure.error res.ResMsg), w1)
    else
      match res.Data with
      | ResourcesData.failed left =>
        ({ u with Resources := left.getD u.Resources },
          some (Failure.error "res data error"), w1)
      | ResourcesData.decoded rs =>
        let (now, w2) := w1.now env
        ({ u with Resources := rs, ResourceMap := buildResourceMap rs, CacheTime := now },
          none, w2)
      | ResourcesData.withNull before after =>
        match fillResourceMap (before.map some ++ none :: after) [] with
        | none => (u, some (Failure.panic NilDereference), w1)
        | some m =>
          let (now, w2) := w1.now env
          ({ u with Resources := before, ResourceMap := m, CacheTime := now }, none, w2)

/-! ## auth.go: the login filter -/

def UnauthorizedMessage : String := "未授权或获取授权失败，访问被拒绝"

def LoginOkMessage : String := "登录成功"

/-- The query of the authorize endpoint for a given `state`. -/
def authorizeParams (a : Auth) (state : String) : Values :=
  let params : Values := []
  let params := params.Add "client_id" (FormatInt a.ClientId)
  let params := params.Add "redirect_uri" a.RedirectUri
  let params := params.Add "response_type" "code"
  let params := params.Add "state" state
  let params := params.Add "scope" a.Scope
  params

/-- `RedirectToLogin`. -/
def RedirectToLogin (a : Auth) (ctx : Context) : Context :=
  if ctx.Request.Header "x-requested-with" = XHR then
    (ctx.WriteHeader 401).WriteString UnauthorizedMessage
  else
    let params := authorizeParams a ctx.Request.URI
    let url := a.Host ++ "/oauth2/authorize?" ++ params.Encode
    ctx.Redirect StatusFound url

/-- The query of the token endpoint. -/
def tokenParams (a : Auth) (code : String) : Values :=
  let params : Values := []
  let params := params.Add "client_id" (FormatInt a.ClientId)
  let params := params.Add "client_secret" a.ClientSecret
  let params := params.Add "redirect_uri" a.RedirectUri
  let params := params.Add "grant_type" "authorization_code"
  let params := params.Add "code" code
  params

/-- `queryTokenFromOauth2`: the token and the error returned, and the world. -/
def queryTokenFromOauth2 (a : Auth) (env : Env) (w : World) (code : String) :
    Token × Error × World :=
  let params := tokenParams a code
  let url := a.Host ++ "/oauth2/token?" ++ params.Encode
  let w1 := w.record (Call.Post url)
  match env.PostToken w.Calls.length url with
  | (token, some err) => (token, some err, w1)
  | (token, none) =>
    if token.Error ≠ "" then (token, some (token.Error ++ ":" ++ token.ErrorDescription), w1)
    else (token, none, w1)

/-- The answer after a login: 200 for an XHR request, else a redirect to `state`
or to `/`. -/
def loginSucceeded (ctx : Context) : Context :=
  if ctx.Request.Header "x-requested-with" = XHR then
    (ctx.WriteHeader 200).WriteString LoginOkMessage
  else
    let originUrl := ctx.Request.Query "state"
    if originUrl ≠ "" then ctx.Redirect StatusFound originUrl
    else ctx.Redirect StatusFound "/"

def emptyToken : Token :=
  { AccessToken := "", ExpiresIn := 0, RefreshToken := "", Scope := "", TokenType := "",
    Error := "", ErrorDescription := "" }

/-- `User{ResourceMap: make(map[string]*Resource)}`: every other field has its
zero value. -/
def newUser : User :=
  { Id := "", Fullname := "", Dn := "", Resources := [], ResourceMap := [], CacheTime := 0,
    Token := emptyToken }

/-- `CheckLoginFilter` (log lines left out). The lines after the `Init` and
`LoadResource` calls of the callback branch (store the user, answer) are
written once per way of reaching them; a panic of `LoadResource` leaves the
filter at once. -/
def CheckLoginFilter (a : Auth) (env : Env) (w : World) (ctx : Context) : Context × World :=
  let code := ctx.Request.Query "code"
  if code = "" then
    match ctx.SessionUser with
    | none => (RedirectToLogin a ctx, w)
    | some user =>
      if a.AutoLoadResource then
        let (now, w1) := w.now env
        if sub64 now user.CacheTime > a.CacheExpire then
          match user.LoadResource env w1 a with
          | (user1, none, w2) => (ctx.SessionSet SESSION_KEY_USER (SessionValue.user user1), w2)
          | (_, some (Failure.error _), w2) => (RedirectToLogin a ctx, w2)
          | (_, some (Failure.panic msg), w2) => (ctx.Panic msg, w2)
        else (ctx, w1)
      else (ctx, w)
  else
    match queryTokenFromOauth2 a env w code with
    | (_, some _, w1) => (RedirectToLogin a ctx, w1)
    | (token, none, w1) =>
      let user := newUser
      let user := { user with Token := token }
      match user.Init env w1 a with
      | (user1, some _, w2) =>
        (loginSucceeded (ctx.SessionSet SESSION_KEY_USER (SessionValue.user user1)), w2)
      | (user1, none, w2) =>
        if a.AutoLoadResource then
          match user1.LoadResource env w2 a with
          | (_, some (Failure.panic msg), w3) => (ctx.Panic msg, w3)
          | (user2, _, w3) =>
            (loginSucceeded (ctx.SessionSet SESSION_KEY_USER (SessionValue.user user2)), w3)
        else (loginSucceeded (ctx.SessionSet SESSION_KEY_USER (SessionValue.user user1)), w2)

/-- `Login`. -/
def Login (a : Auth) (env : Env) (w : World) (code : String) (ctx : Context) :
    Context × World :=
  match queryTokenFromOauth2 a env w code with
  | (_, some _, w1) => (RedirectToLogin a ctx, w1)
  | (user, none, w1) =>
    (loginSucceeded (ctx.SessionSet SESSION_KEY_USER (SessionValue.token user)), w1)

/-- `Logout` (the revoke reply is only logged). -/
def Logout (a : Auth) (env : Env) (w : World) (ctx : Context) (state : String) :
    Context × World :=
  let w1 :=
    match ctx.SessionUser with
    | some user =>
      let url := "https://auth.yxapp.in/oauth2/token?access_token=" ++ user.Token.AccessToken
      let w1 := w.record (Call.Delete url)
      match env.Revoke w.Calls.length url with
      | Except.error _ => w1
      | Except.ok status => if status ≠ 200 then w1 else w1
    | none => w
  let ctx := { ctx with CruSession := [] }
  let params := authorizeParams a state
  let url := a.Host ++ "/oauth2/authorize?" ++ params.Encode
  (ctx.Redirect StatusFound url, w1)

/-! ## auth.go: `NewAuthService` -/

/-- `Config`; `UrlControl` lists the entries of the map in the order in which
`range` visits them (the keys of a map are pairwise distinct). -/
structure Config where
  ClientId : String
  ClientSecret : String
  RedirectUri : String
  Host : String
  AutoLoadResource : String
  Scope : String
  CacheExpire : String
  UrlControl : List (String × String)
deriving DecidableEq, Repr

/-- Value of a decimal digit. -/
def digitVal (c : Char) : Option Nat :=
  if 48 ≤ c.toNat ∧ c.toNat ≤ 57 then some (c.toNat - 48) else none

/-- Value of a run of decimal digits, `none` when some character is not one. -/
def parseDigits (cs : List Char) : Option Nat :=
  cs.foldl
    (fun acc c =>
      match acc, digitVal c with
      | some n, some d => some (10 * n + d)
      | _, _ => none)
    (some 0)

/-- `strconv.ParseInt(s, 10, 64)`: the value and the error. A syntax error gives
0; a value out of range gives the nearest bound together with the error. -/
def ParseInt (s : String) : Int × Error :=
  match s.data with
  | [] => (0, some "invalid syntax")
  | c :: cs =>
    let neg := decide (c = '-')
    let digits := if c = '+' ∨ c = '-' then cs else c :: cs
    if digits = [] then (0, some "invalid syntax")
    else
      match parseDigits digits with
      | none => (0, some "invalid syntax")
      | some un =>
        if !neg && decide (un ≥ 2 ^ 63) then (2 ^ 63 - 1, some "value out of range")
        else if neg && decide (un > 2 ^ 63) then (-(2 ^ 63), some "value out of range")
        else (if neg then -(un : Int) else (un : Int), none)

/-- Pieces of a character list between occurrences of `sep`. -/
def splitChars (sep : Char) : List Char → List (List Char)
  | [] => [[]]
  | c :: cs =>
    if c = sep then [] :: splitChars sep cs
    else
      match splitChars sep cs with
      | [] => [[c]]
      | seg :: rest => (c :: seg) :: rest

/-- `strings.Split(s, sep)` for a separator of one character. -/
def Split (s : String) (sep : Char) : List String :=
  (splitChars sep s.data).map String.mk

/-- The loop of `NewAuthService` that fills `UrlControl`. -/
def buildUrlControl (lower : Char → Char) (entries : List (String × String)) :
    GoMap (List String) :=
  entries.foldl (fun m e => GoMap.set m (ToLower lower e.1) (Split (ToLower lower e.2) '|')) []

/-- `NewAuthService`: the service, or the message of the panic. -/
def NewAuthService (lower : Char → Char) (config : Option Config) : Except String Auth :=
  match config with
  | none => Except.error "auth service init failed: config counld not be nil"
  | some config =>
    match ParseInt config.ClientId with
    | (_, some _) =>
      Except.error ("auth service init failed: clientId is invalid " ++ config.ClientId)
    | (clientId, none) =>
      let autoLoadResource := decide (config.AutoLoadResource = "true")
      let cacheExpire : Except String Int :=
        if autoLoadResource then
          match ParseInt config.CacheExpire with
          | (cacheExpire, err) =>
            if err ≠ none ∧ cacheExpire > 0 then
              Except.error
                ("auth service init failed: cacheExpire is invalid " ++ config.CacheExpire)
            else Except.ok cacheExpire
        else Except.ok 0
      match cacheExpire with
      | Except.error msg => Except.error msg
      | Except.ok cacheExpire =>
        Except.ok
          { ClientId := clientId
            ClientSecret := config.ClientSecret
            RedirectUri := config.RedirectUri
            Host := config.Host
            AutoLoadResource := autoLoadResource
            Scope := if config.Scope = "" then "all:all" else config.Scope
            CacheExpire := cacheExpire
            UrlControl := buildUrlControl lower config.UrlControl }

/-! ## apiModels.go: the API client -/

structure ApiAuth where
  ClientId : Int
  ClientSecret : String
  RedirectUri : String
  ApiHost : String
deriving DecidableEq, Repr

structure ApiResource where
  Id : Int
  Name : String
  Description : String
  ClientId : Int
  Data : String
  CreatedBy : String
  UpdatedBy : String
  Created : String
  Updated : String
deriving DecidableEq, Repr

structure UserInfo where
  UserId : String
  RoleType : String
deriving DecidableEq, Repr

/-- `SUCC`. -/
def SUCC : Int := 0

/-- `RespBody`; `Data` is `none` for a nil `data` and otherwise its JSON text. -/
structure RespBody where
  ResCode : Int
  ResMsg : String
  Data : Option String
deriving DecidableEq, Repr

/-- An `*http.Response` as `processResp` reads it: the status code and what
`ioutil.ReadAll` gives for the body. -/
structure HttpResponse where
  StatusCode : Int
  Body : Except String String

/-- A request built with `httplib`. -/
structure ApiRequest where
  Method : String
  Url : String
  Headers : List (String × String)
  Body : String
deriving DecidableEq, Repr

/-- The network and `encoding/json` as the API client uses them: `Do` is the
round trip (a transport error or a response), the rest are the marshallers
and decoders of the payloads. -/
structure ApiEnv where
  Do : ApiRequest → Except String HttpResponse
  MarshalNames : List String → String
  MarshalInfos : List UserInfo → String
  UnmarshalRespBody : String → Except String RespBody
  UnmarshalInt : String → Except String Int
  UnmarshalResources : String → Except String (List ApiResource)

/-- How a call of the API client ends: a panic, or the returned value and error. -/
inductive Outcome (α : Type) where
  | panicked (msg : String)
  | returned (value : α) (err : Error)
deriving DecidableEq, Repr

/-- `Response()`: the response pointer (`none` is nil) and the error. -/
def ApiEnv.Response (env : ApiEnv) (req : ApiRequest) : Option HttpResponse × Error :=
  match env.Do req with
  | Except.error err => (none, some err)
  | Except.ok response => (some response, none)

/-- `processResp`; reading the status code of a nil response panics. -/
def processResp (env : ApiEnv) (response : Option HttpResponse) : Outcome String :=
  match response with
  | none => Outcome.panicked "invalid memory address or nil pointer dereference"
  | some response =>
    if response.StatusCode ≠ 200 then
      Outcome.returned "" (some ("unexpected status code of " ++ toString response.StatusCode))
    else
      match response.Body with
      | Except.error err => Outcome.returned "" (some err)
      | Except.ok rawBody =>
        match env.UnmarshalRespBody rawBody with
        | Except.error err => Outcome.returned "" (some err)
        | Except.ok body =>
          if body.ResCode ≠ SUCC ∧ body.Data = none then
            Outcome.returned "" (some body.ResMsg)
          else Outcome.returned (body.Data.getD "null") none

/-- The headers every call of the client carries. -/
def ApiAuth.headers (a : ApiAuth) : List (String × String) :=
  [("client-secret", a.ClientSecret), ("client-id", FormatInt a.ClientId)]

/-- The tail shared by `GetAllResources` and `GetUserResources`. -/
def decodeResources (env : ApiEnv) (processed : Outcome String) :
    Outcome (List ApiResource) :=
  match processed with
  | Outcome.panicked msg => Outcome.panicked msg
  | Outcome.returned _ (some err) => Outcome.returned [] (some err)
  | Outcome.returned data none =>
    match env.UnmarshalResources data with
    | Except.error err => Outcome.returned [] (some err)
    | Except.ok resources => Outcome.returned resources none

/-- `GetAllResources`: the error of `Response()` is overwritten unread. -/
def ApiAuth.GetAllResources (a : ApiAuth) (env : ApiEnv) : Outcome (List ApiResource) :=
  let url := a.ApiHost ++ "/api/resources"
  let resp : ApiRequest := { Method := "GET", Url := url, Headers := a.headers, Body := "" }
  let (response, _) := env.Response resp
  decodeResources env (processResp env response)

/-- `GetUserResources`: the error of `Response()` is overwritten unread. -/
def ApiAuth.GetUserResources (a : ApiAuth) (env : ApiEnv) (userId : String) :
    Outcome (List ApiResource) :=
  let url := a.ApiHost ++ "/api/resources?user_id=" ++ userId
  let resp : ApiRequest := { Method := "GET", Url := url, Headers := a.headers, Body := "" }
  let (response, _) := env.Response resp
  decodeResources env (processResp env response)

/-- The tail shared by the calls that return a count. -/
def decodeCount (env : ApiEnv) (processed : Outcome String) : Outcome Int :=
  match processed with
  | Outcome.panicked msg => Outcome.panicked msg
  | Outcome.returned _ (some err) => Outcome.returned (-1) (some err)
  | Outcome.returned data none =>
    match env.UnmarshalInt data with
    | Except.error err => Outcome.returned (-1) (some err)
    | Except.ok num => Outcome.returned num none

/-- `AddUserToRole`. -/
def ApiAuth.AddUserToRole (a : ApiAuth) (env : ApiEnv) (roleId : Int)
    (infos : List UserInfo) : Outcome Int :=
  let url := a.ApiHost ++ "/api/roleUsers/" ++ toString roleId
  let b := env.MarshalInfos infos
  let resp : ApiRequest := { Method := "POST", Url := url, Headers := a.headers, Body := b }
  match env.Response resp with
  | (_, some err) => Outcome.returned (-1) (some err)
  | (response, none) => decodeCount env (processResp env response)

/-- `DeleteUserFromRole`: on an error of `Response()` it returns `-1, nil`. -/
def ApiAuth.DeleteUserFromRole (a : ApiAuth) (env : ApiEnv) (roleId : Int)
    (names : List String) : Outcome Int :=
  let url := a.ApiHost ++ "/api/roleUsers/" ++ toString roleId
  let b := env.MarshalNames names
  let resp : ApiRequest := { Method := "DELETE", Url := url, Headers := a.headers, Body := b }
  match env.Response resp with
  | (_, some _) => Outcome.returned (-1) none
  | (response, none) => decodeCount env (processResp env response)

/-! ## Concrete scenarios -/

def exToken : Token :=
  { AccessToken := "tok", ExpiresIn := 3600, RefreshToken := "ref", Scope := "all:all",
    TokenType := "Bearer", Error := "", ErrorDescription := "" }

def exResource (id : Int) (data : String) : Resource :=
  { Id := id, Description := "", Data := data }

/-- A cached user, stamped at second 1000, holding one resource. -/
def exUser : User :=
  { Id := "u1", Fullname := "User One", Dn := "cn=u1", Resources := [exResource 1 "old"],
    ResourceMap := [("old", exResource 1 "old")], CacheTime := 1000, Token := exToken }

/-- Auto-load on, sixty seconds of cache life. -/
def exAuth : Auth :=
  { ClientId := 7, ClientSecret := "secret", RedirectUri := "http://app/cb",
    Host := "https://sso", AutoLoadResource := true, Scope := "all:all", CacheExpire := 60,
    UrlControl := [("get:/admin", ["manage_users"])] }

/-- As `exAuth`, with a cache life of zero. -/
def exAuthZero : Auth := { exAuth with CacheExpire := 0 }

def exWorld : World := { Calls := [], Reads := 0 }

/-- A browser request for `/admin` on a session that holds `exUser`. -/
def exCtx : Context :=
  { Request := { Method := "GET", URI := "/admin", Params := [], Headers := [] },
    CruSession := [("user", SessionValue.user exUser)], Written := [] }

/-- A browser request for `/admin` on an empty session. -/
def exCtxAnonymous : Context := { exCtx with CruSession := [] }

/-- The provider's callback, from a browser. -/
def exCtxCallback : Context :=
  { Request := { Method := "GET", URI := "/cb?code=abc&state=/admin",
                 Params := [("code", "abc"), ("state", "/admin")], Headers := [] },
    CruSession := [], Written := [] }

/-- The provider's callback, from an XHR client. -/
def exCtxCallbackXHR : Context :=
  { exCtxCallback with
    Request := { exCtxCallback.Request with Headers := [("x-requested-with", "XMLHttpRequest")] } }

def exUserData : UserData :=
  { id := some "u1", fullname := some "User One", dn := some "cn=u1", resource := none,
    resourceMap := MapMember.absent, cacheTime := none, illTyped := false }

/-- A provider that answers every request well, at clock reading `now`. -/
def exEnv (now : Int) : Env :=
  { Now := fun _ => now
    PostToken := fun _ _ => (exToken, none)
    GetUser := fun _ _ _ => Except.ok { ResCode := 0, ResMsg := "ok", Data := exUserData }
    GetUserResources := fun _ _ _ =>
      Except.ok { ResCode := 0, ResMsg := "ok",
                  Data := ResourcesData.decoded [exResource 2 "manage_users"] }
    Revoke := fun _ _ => Except.ok 200 }

/-- As `exEnv`, with the resource endpoint unreachable. -/
def exEnvNoResources (now : Int) : Env :=
  { exEnv now with GetUserResources := fun _ _ _ => Except.error "connection refused" }

/-- As `exEnv`, with the token endpoint answering `invalid_grant`. -/
def exEnvInvalidGrant (now : Int) : Env :=
  { exEnv now with
    PostToken := fun _ _ =>
      ({ exToken with AccessToken := "", Error := "invalid_grant",
                      ErrorDescription := "code expired" }, none) }

/-- As `exEnv`, with the user endpoint unreachable. -/
def exEnvNoIdentity (now : Int) : Env :=
  { exEnv now with GetUser := fun _ _ _ => Except.error "connection refused" }

/-- As `exEnvNoResources`, with a user payload that carries a `resourceMap`. -/
def exEnvMapInIdentity (now : Int) : Env :=
  { exEnvNoResources now with
    GetUser := fun _ _ _ =>
      Except.ok { ResCode := 0, ResMsg := "ok",
                  Data := { exUserData with
                    resourceMap := MapMember.object [("manage_users", exResource 2 "manage_users")] } } }

/-- As `exEnv`, with a user endpoint that now reports another full name. -/
def exEnvRenamed (now : Int) : Env :=
  { exEnv now with
    GetUser := fun _ _ _ =>
      Except.ok { ResCode := 0, ResMsg := "ok",
                  Data := { exUserData with fullname := some "Renamed" } } }

/-- Auto-load on, parseable client id, a cache life that is not a number. -/
def exConfigBadExpire : Config :=
  { ClientId := "7", ClientSecret := "secret", RedirectUri := "http://app/cb",
    Host := "https://sso", AutoLoadResource := "true", Scope := "", CacheExpire := "abc",
    UrlControl := [("GET:/Admin", "Manage_Users|audit")] }

/-- Two keys of `url_control` that differ by letter case only. -/
def exConfigCollide : Config :=
  { exConfigBadExpire with
    CacheExpire := "60", UrlControl := [("/Admin", "a"), ("/admin", "b")] }

/-- A session user that holds resource `b` and not `a`. -/
def exCtxHoldsB : Context :=
  { exCtx with
    CruSession := [("user", SessionValue.user
      { exUser with ResourceMap := [("b", exResource 3 "b")] })] }

def exApi : ApiAuth :=
  { ClientId := 7, ClientSecret := "secret", RedirectUri := "http://app/cb",
    ApiHost := "https://sso" }

/-- A network on which every round trip fails. -/
def exApiEnvDown : ApiEnv :=
  { Do := fun _ => Except.error "connection refused"
    MarshalNames := fun _ => "[]"
    MarshalInfos := fun _ => "[]"
    UnmarshalRespBody := fun _ => Except.error "unexpected end of JSON input"
    UnmarshalInt := fun _ => Except.error "unexpected end of JSON input"
    UnmarshalResources := fun _ => Except.error "unexpected end of JSON input" }

/-- The service `NewAuthService` builds from `exConfigCollide` when `range`
visits `/Admin` before `/admin`. -/
def exAuthCollide : Auth :=
  { ClientId := 7, ClientSecret := "secret", RedirectUri := "http://app/cb",
    Host := "https://sso", AutoLoadResource := true, Scope := "all:all", CacheExpire := 60,
    UrlControl := [("/admin", ["b"])] }

/-- One rule on `get:/admin`, written with capitals. -/
def exConfig : Config := { exConfigBadExpire with CacheExpire := "60" }

/-- As `exEnv`, with a resource list whose only element is null. -/
def exEnvNullResource (now : Int) : Env :=
  { exEnv now with
    GetUserResources := fun _ _ _ =>
      Except.ok { ResCode := 0, ResMsg := "ok", Data := ResourcesData.withNull [] [] } }

/-! ## Lemmas on the helpers -/

theorem rangeResources_eq_true (m : GoMap Resource) (rs : List String) :
    rangeResources m rs = true ↔ ∀ v ∈ rs, (GoMap.get m v).isSome = true := by
  induction rs with
  | nil => simp [rangeResources]
  | cons v rest ih =>
    by_cases h : (GoMap.get m v).isSome = true
    · simp [rangeResources, h, ih]
    · simp [rangeResources, h]

/-- The rule at key `k` of table `T` lets the map `M` pass: no rule, or every
listed key is a key of `M`. -/
theorem rule_pass_iff (T : GoMap (List String)) (M : GoMap Resource) (k : String) :
    (match GoMap.get T k with
      | some resources => rangeResources M resources
      | none => true) = true ↔
    (GoMap.get T k = none ∨
      ∃ rs, GoMap.get T k = some rs ∧ ∀ v ∈ rs, (GoMap.get M v).isSome = true) := by
  cases h : GoMap.get T k with
  | none => simp
  | some rs => simp [rangeResources_eq_true]

theorem written_append_ne (ctx : Context) (o : Output) (os : List Output) :
    ({ ctx with Written := ctx.Written ++ o :: os } : Context) ≠ ctx := by
  intro h
  have h1 := congrArg (fun c => c.Written.length) h
  simp at h1

/-- The two outcomes of `CheckAuthorityFilter`, by the two rule checks. -/
theorem CheckAuthorityFilter_cases (lower : Char → Char) (a : Auth) (ctx : Context) (p : String) (b1 b2 : Bool)
    (h1 : (match GoMap.get a.UrlControl (ToLower lower p) with
            | some resources => rangeResources (CurrentUser a ctx).ResourceMap resources
            | none => true) = b1)
    (h2 : (match GoMap.get a.UrlControl (ToLower lower ctx.Request.Method ++ ":" ++ ToLower lower p) with
            | some resources => rangeResources (CurrentUser a ctx).ResourceMap resources
            | none => true) = b2) :
    CheckAuthorityFilter lower a ctx p =
      if (b1 && b2) = true then ctx
      else { ctx with Written := ctx.Written ++
            (if ctx.Request.Header "x-requested-with" = XHR
              then [Output.WriteHeader 403, Output.WriteString DeniedMessage]
              else [Output.Exception 403]) } := by
  cases b1 <;> cases b2 <;>
    by_cases hx : ctx.Request.Header "x-requested-with" = XHR <;>
    simp [CheckAuthorityFilter, h1, h2, hx, Context.WriteHeader, Context.WriteString,
      Context.Exception]

theorem wrap64_of_inRange (x : Int) (h1 : -(2 : Int) ^ 63 ≤ x) (h2 : x < (2 : Int) ^ 63) :
    wrap64 x = x := by
  unfold wrap64
  rw [Int.emod_eq_of_lt (by omega) (by omega)]
  omega

theorem sub64_of_inRange (a b : Int) (h1 : -(2 : Int) ^ 63 ≤ a - b)
    (h2 : a - b < (2 : Int) ^ 63) : sub64 a b = a - b :=
  wrap64_of_inRange (a - b) h1 h2

theorem GoMap.get_filter_ne {α : Type} (m : GoMap α) (k k' : String) (h : k' ≠ k) :
    GoMap.get (m.filter (fun e => e.1 != k)) k' = GoMap.get m k' := by
  induction m with
  | nil => rfl
  | cons e rest ih =>
    obtain ⟨ek, ev⟩ := e
    unfold GoMap.get at ih ⊢
    by_cases he : ek = k
    · have hk : (k' == k) = false := beq_false_of_ne h
      subst he
      simp [List.filter, List.lookup, hk, ih]
    · have hne : (ek != k) = true := by simpa using he
      simp only [List.filter, hne, List.lookup]
      cases hk : (k' == ek) <;> simp [ih]

theorem GoMap.get_set {α : Type} (m : GoMap α) (k k' : String) (v : α) :
    GoMap.get (GoMap.set m k v) k' = if k' = k then some v else GoMap.get m k' := by
  by_cases h : k' = k
  · subst h
    simp [GoMap.get, GoMap.set, List.lookup]
  · have hk : (k' == k) = false := beq_false_of_ne h
    have := GoMap.get_filter_ne m k k' h
    unfold GoMap.get at this ⊢
    simp [GoMap.set, List.lookup, hk, h, this]

theorem get_foldl_set (rs : List Resource) (m : GoMap Resource) (k : String) :
    GoMap.get (rs.foldl (fun m v => GoMap.set m v.Data v) m) k =
      ((rs.reverse.find? (fun r => r.Data == k)).or (GoMap.get m k)) := by
  induction rs generalizing m with
  | nil => simp
  | cons r rest ih =>
    rw [List.foldl_cons, ih, GoMap.get_set, List.reverse_cons, List.find?_append]
    cases hf : List.find? (fun r => r.Data == k) rest.reverse with
    | some x => simp
    | none =>
      by_cases hk : k = r.Data
      · subst hk; simp
      · have hk2 : ¬ r.Data = k := fun h => hk h.symm
        simp [hk, hk2]

theorem get_buildResourceMap (rs : List Resource) (k : String) :
    GoMap.get (buildResourceMap rs) k = rs.reverse.find? (fun r => r.Data == k) := by
  unfold buildResourceMap
  rw [get_foldl_set]
  simp [GoMap.get]

/-- A nil pointer in the slice stops the loop of `LoadResource`. -/
theorem fillResourceMap_null (before : List Resource) (after : List (Option Resource))
    (m : GoMap Resource) :
    fillResourceMap (before.map some ++ none :: after) m = none := by
  induction before generalizing m with
  | nil => rfl
  | cons v rest ih => exact ih _

/-- Without a nil pointer the loop is the one over the resources themselves. -/
theorem fillResourceMap_some (rs : List Resource) (m : GoMap Resource) :
    fillResourceMap (rs.map some) m =
      some (rs.foldl (fun m v => GoMap.set m v.Data v) m) := by
  induction rs generalizing m with
  | nil => rfl
  | cons v rest ih => exact ih _

/-- The request `LoadResource` sends for user `u`. -/
theorem LoadResource_calls (u : User) (env : Env) (w : World) (auth : Auth) :
    (u.LoadResource env w auth).2.2.Calls =
      w.Calls ++ [Call.Get (auth.Host ++ "/api/userResources")
        (u.Token.TokenType ++ " " ++ u.Token.AccessToken)] := by
  unfold User.LoadResource
  cases h : env.GetUserResources w.Calls.length (auth.Host ++ "/api/userResources")
      (u.Token.TokenType ++ " " ++ u.Token.AccessToken) with
  | error e => simp [h, World.record]
  | ok res =>
    by_cases hc : res.ResCode = OK
    · cases hd : res.Data <;>
        simp [h, hc, hd, World.record, World.now, fillResourceMap_null]
    · simp [h, hc, World.record]

theorem LoadResource_ok (u : User) (env : Env) (w : World) (auth : Auth)
    (res : ResponseBody ResourcesData) (rs : List Resource)
    (hreply : env.GetUserResources w.Calls.length (auth.Host ++ "/api/userResources")
      (u.Token.TokenType ++ " " ++ u.Token.AccessToken) = Except.ok res)
    (hok : res.ResCode = OK) (hdata : res.Data = ResourcesData.decoded rs) :
    u.LoadResource env w auth =
      ({ u with Resources := rs, ResourceMap := buildResourceMap rs,
                CacheTime := env.Now w.Reads }, none,
        { Calls := w.Calls ++ [Call.Get (auth.Host ++ "/api/userResources")
            (u.Token.TokenType ++ " " ++ u.Token.AccessToken)], Reads := w.Reads + 1 }) := by
  unfold User.LoadResource
  simp [hreply, hok, hdata, World.record, World.now]

/-- `LoadResource` panics only on a decoded list that holds a null element. -/
theorem LoadResource_panic (u : User) (env : Env) (w : World) (auth : Auth) (msg : String)
    (h : (u.LoadResource env w auth).2.1 = some (Failure.panic msg)) :
    ∃ res before after,
      env.GetUserResources w.Calls.length (auth.Host ++ "/api/userResources")
        (u.Token.TokenType ++ " " ++ u.Token.AccessToken) = Except.ok res ∧
      res.ResCode = OK ∧ res.Data = ResourcesData.withNull before after := by
  unfold User.LoadResource at h
  cases hr : env.GetUserResources w.Calls.length (auth.Host ++ "/api/userResources")
      (u.Token.TokenType ++ " " ++ u.Token.AccessToken) with
  | error e => simp [hr] at h
  | ok res =>
    by_cases hc : res.ResCode = OK
    · cases hd : res.Data with
      | decoded rs => simp [hr, hc, hd, World.now] at h
      | failed left => simp [hr, hc, hd] at h
      | withNull before after => exact ⟨res, before, after, rfl, hc, hd⟩
    · simp [hr, hc] at h

theorem LoadResource_failed (u : User) (env : Env) (w : World) (auth : Auth)
    (hfail : (∃ e, env.GetUserResources w.Calls.length (auth.Host ++ "/api/userResources")
        (u.Token.TokenType ++ " " ++ u.Token.AccessToken) = Except.error e) ∨
      (∃ res, env.GetUserResources w.Calls.length (auth.Host ++ "/api/userResources")
        (u.Token.TokenType ++ " " ++ u.Token.AccessToken) = Except.ok res ∧
          res.ResCode ≠ OK) ∨
      (∃ res left, env.GetUserResources w.Calls.length (auth.Host ++ "/api/userResources")
        (u.Token.TokenType ++ " " ++ u.Token.AccessToken) = Except.ok res ∧
          res.Data = ResourcesData.failed left)) :
    ∃ u1 e, u.LoadResource env w auth =
      (u1, some (Failure.error e),
        { w with Calls := w.Calls ++ [Call.Get (auth.Host ++ "/api/userResources")
          (u.Token.TokenType ++ " " ++ u.Token.AccessToken)] }) ∧
      u1.ResourceMap = u.ResourceMap ∧ u1.Id = u.Id ∧ u1.Fullname = u.Fullname ∧
      u1.Dn = u.Dn ∧ u1.Token = u.Token ∧ u1.CacheTime = u.CacheTime := by
  unfold User.LoadResource
  rcases hfail with ⟨e, h⟩ | ⟨res, h, hc⟩ | ⟨res, left, h, hd⟩
  · exact ⟨u, e, by simp [h, World.record]⟩
  · exact ⟨u, res.ResMsg, by simp [h, hc, World.record]⟩
  · by_cases hc : res.ResCode = OK
    · exact ⟨{ u with Resources := left.getD u.Resources }, "res data error",
        by simp [h, hc, hd, World.record]⟩
    · exact ⟨u, res.ResMsg, by simp [h, hc, World.record]⟩

/-- `CheckLoginFilter` on a request without `code` whose session holds a user. -/
theorem CheckLoginFilter_cached (a : Auth) (env : Env) (w : World) (ctx : Context)
    (user : User) (hcode : ctx.Request.Query "code" = "")
    (huser : ctx.SessionUser = some user) :
    CheckLoginFilter a env w ctx =
      if a.AutoLoadResource = true then
        if sub64 (env.Now w.Reads) user.CacheTime > a.CacheExpire then
          match user.LoadResource env { w with Reads := w.Reads + 1 } a with
          | (user1, none, w2) =>
            (ctx.SessionSet SESSION_KEY_USER (SessionValue.user user1), w2)
          | (_, some (Failure.error _), w2) => (RedirectToLogin a ctx, w2)
          | (_, some (Failure.panic msg), w2) => (ctx.Panic msg, w2)
        else (ctx, { w with Reads := w.Reads + 1 })
      else (ctx, w) := by
  unfold CheckLoginFilter
  simp only [hcode, huser, if_true, World.now]

theorem authorizeParams_eq (a : Auth) (st : String) :
    authorizeParams a st =
      [("scope", [a.Scope]), ("state", [st]), ("response_type", ["code"]),
       ("redirect_uri", [a.RedirectUri]), ("client_id", [FormatInt a.ClientId])] := by
  rfl

theorem sortKeys_authorize :
    sortKeys ["scope", "state", "response_type", "redirect_uri", "client_id"] =
      ["client_id", "redirect_uri", "response_type", "scope", "state"] := by
  decide

/-- The query string of the authorize endpoint, written out. -/
theorem authorizeParams_Encode (a : Auth) (st : String) :
    (authorizeParams a st).Encode =
      "client_id=" ++ QueryEscape (FormatInt a.ClientId) ++
      "&redirect_uri=" ++ QueryEscape a.RedirectUri ++
      "&response_type=code" ++
      "&scope=" ++ QueryEscape a.Scope ++
      "&state=" ++ QueryEscape st := by
  rw [authorizeParams_eq]
  unfold Values.Encode
  simp only [List.map, sortKeys_authorize]
  simp only [GoMap.get, List.lookup, String.intercalate, String.intercalate.go, List.flatMap,
    List.map, List.flatten, Option.getD, List.append_nil, List.cons_append, List.nil_append]
  have e1 : QueryEscape "client_id" = "client_id" := by decide
  have e2 : QueryEscape "redirect_uri" = "redirect_uri" := by decide
  have e3 : QueryEscape "response_type" = "response_type" := by decide
  have e4 : QueryEscape "scope" = "scope" := by decide
  have e5 : QueryEscape "state" = "state" := by decide
  have e6 : QueryEscape "code" = "code" := by decide
  rw [e1, e2, e3, e4, e5, e6]
  apply String.ext
  simp [String.data_append, String.intercalate.go]

/-- What `RedirectToLogin` writes. -/
theorem RedirectToLogin_eq (a : Auth) (ctx : Context) :
    RedirectToLogin a ctx =
      { ctx with Written := ctx.Written ++
        (if ctx.Request.Header "x-requested-with" = XHR
          then [Output.WriteHeader 401, Output.WriteString UnauthorizedMessage]
          else [Output.Redirect 302
            (a.Host ++ "/oauth2/authorize?" ++ (authorizeParams a ctx.Request.URI).Encode)]) } := by
  unfold RedirectToLogin
  by_cases hx : ctx.Request.Header "x-requested-with" = XHR <;>
    simp [hx, Context.WriteHeader, Context.WriteString, Context.Redirect, StatusFound]

/-- What the login-success answer writes. -/
theorem loginSucceeded_eq (ctx : Context) :
    loginSucceeded ctx =
      { ctx with Written := ctx.Written ++
        (if ctx.Request.Header "x-requested-with" = XHR
          then [Output.WriteHeader 200, Output.WriteString LoginOkMessage]
          else [Output.Redirect 302
            (if ctx.Request.Query "state" ≠ "" then ctx.Request.Query "state" else "/")]) } := by
  unfold loginSucceeded
  by_cases hx : ctx.Request.Header "x-requested-with" = XHR
  · simp [hx, Context.WriteHeader, Context.WriteString]
  · by_cases hs : ctx.Request.Query "state" = "" <;>
      simp [hx, hs, Context.Redirect, StatusFound]

/-- The three outcomes of `queryTokenFromOauth2`, by the provider's reply. -/
theorem queryTokenFromOauth2_eq (a : Auth) (env : Env) (w : World) (code : String)
    (token : Token) (err : Error)
    (hreply : env.PostToken w.Calls.length
      (a.Host ++ "/oauth2/token?" ++ (tokenParams a code).Encode) = (token, err)) :
    queryTokenFromOauth2 a env w code =
      (token,
        (match err with
          | some e => some e
          | none =>
            if token.Error ≠ "" then some (token.Error ++ ":" ++ token.ErrorDescription)
            else none),
        { w with Calls := w.Calls ++
            [Call.Post (a.Host ++ "/oauth2/token?" ++ (tokenParams a code).Encode)] }) := by
  unfold queryTokenFromOauth2
  simp only [hreply, World.record]
  cases err with
  | some e => rfl
  | none =>
    by_cases he : token.Error = "" <;> simp [he]

/-- A stale cached user: the resource request is the one call made. -/
theorem CheckLoginFilter_stale_calls (a : Auth) (env : Env) (w : World) (ctx : Context)
    (user : User) (hcode : ctx.Request.Query "code" = "")
    (huser : ctx.SessionUser = some user)
    (hauto : a.AutoLoadResource = true)
    (hstale : sub64 (env.Now w.Reads) user.CacheTime > a.CacheExpire) :
    (CheckLoginFilter a env w ctx).2.Calls =
      w.Calls ++ [Call.Get (a.Host ++ "/api/userResources")
        (user.Token.TokenType ++ " " ++ user.Token.AccessToken)] := by
  rw [CheckLoginFilter_cached a env w ctx user hcode huser, if_pos hauto, if_pos hstale]
  have hc := LoadResource_calls user env { w with Reads := w.Reads + 1 } a
  rcases hl : user.LoadResource env { w with Reads := w.Reads + 1 } a with ⟨u1, e, w2⟩
  rw [hl] at hc
  rcases e with _ | e
  · exact hc
  · cases e <;> exact hc

/-- A cached user that is not refreshed: no call, the context as it was. -/
theorem CheckLoginFilter_fresh (a : Auth) (env : Env) (w : World) (ctx : Context)
    (user : User) (hcode : ctx.Request.Query "code" = "")
    (huser : ctx.SessionUser = some user)
    (h : ¬ (a.AutoLoadResource = true ∧
        sub64 (env.Now w.Reads) user.CacheTime > a.CacheExpire)) :
    (CheckLoginFilter a env w ctx).2.Calls = w.Calls ∧
    (CheckLoginFilter a env w ctx).1 = ctx := by
  rw [CheckLoginFilter_cached a env w ctx user hcode huser]
  by_cases h1 : a.AutoLoadResource = true
  · have h2 : ¬ sub64 (env.Now w.Reads) user.CacheTime > a.CacheExpire :=
      fun h2 => h ⟨h1, h2⟩
    rw [if_pos h1, if_neg h2]
    exact ⟨rfl, rfl⟩
  · rw [if_neg h1]
    exact ⟨rfl, rfl⟩

/-- `CheckLoginFilter` on a request that carries a `code`. -/
theorem CheckLoginFilter_callback (a : Auth) (env : Env) (w : World) (ctx : Context)
    (hcode : ctx.Request.Query "code" ≠ "") :
    CheckLoginFilter a env w ctx =
      match queryTokenFromOauth2 a env w (ctx.Request.Query "code") with
      | (_, some _, w1) => (RedirectToLogin a ctx, w1)
      | (token, none, w1) =>
        match ({ newUser with Token := token } : User).Init env w1 a with
        | (user1, some _, w2) =>
          (loginSucceeded (ctx.SessionSet SESSION_KEY_USER (SessionValue.user user1)), w2)
        | (user1, none, w2) =>
          if a.AutoLoadResource = true then
            match user1.LoadResource env w2 a with
            | (_, some (Failure.panic msg), w3) => (ctx.Panic msg, w3)
            | (user2, _, w3) =>
              (loginSucceeded (ctx.SessionSet SESSION_KEY_USER (SessionValue.user user2)), w3)
          else (loginSucceeded (ctx.SessionSet SESSION_KEY_USER (SessionValue.user user1)), w2) := by
  unfold CheckLoginFilter
  simp only [hcode, if_false]

/-- A callback whose code exchange fails. -/
theorem CheckLoginFilter_exchange_failed (a : Auth) (env : Env) (w : World) (ctx : Context)
    (hcode : ctx.Request.Query "code" ≠ "")
    (hfail : (env.PostToken w.Calls.length (a.Host ++ "/oauth2/token?" ++
          (tokenParams a (ctx.Request.Query "code")).Encode)).2 ≠ none ∨
      (env.PostToken w.Calls.length (a.Host ++ "/oauth2/token?" ++
          (tokenParams a (ctx.Request.Query "code")).Encode)).1.Error ≠ "") :
    CheckLoginFilter a env w ctx =
      (RedirectToLogin a ctx,
        { w with Calls := w.Calls ++ [Call.Post (a.Host ++ "/oauth2/token?" ++
          (tokenParams a (ctx.Request.Query "code")).Encode)] }) := by
  rw [CheckLoginFilter_callback a env w ctx hcode]
  rcases hr : env.PostToken w.Calls.length (a.Host ++ "/oauth2/token?" ++
      (tokenParams a (ctx.Request.Query "code")).Encode) with ⟨token, err⟩
  rw [hr] at hfail
  rw [queryTokenFromOauth2_eq a env w _ token err hr]
  cases err with
  | some e => rfl
  | none =>
    have he : token.Error ≠ "" := by
      rcases hfail with h | h
      · exact absurd rfl h
      · exact h
    simp [he]

theorem Init_ok (u : User) (env : Env) (w : World) (auth : Auth)
    (res : ResponseBody UserData)
    (hreply : env.GetUser w.Calls.length (auth.Host ++ "/api/user")
      (u.Token.TokenType ++ " " ++ u.Token.AccessToken) = Except.ok res)
    (hok : res.ResCode = OK) (htyped : res.Data.illTyped = false) :
    u.Init env w auth =
      (res.Data.unmarshal u, none,
        { w with Calls := w.Calls ++ [Call.Get (auth.Host ++ "/api/user")
          (u.Token.TokenType ++ " " ++ u.Token.AccessToken)] }) := by
  unfold User.Init
  simp [hreply, hok, htyped, World.record]

/-- Whatever the reply, `Init` sends one request and keeps the token; when it
returns an error no other field than those in the payload has changed. -/
theorem Init_calls (u : User) (env : Env) (w : World) (auth : Auth) :
    (u.Init env w auth).2.2 =
      { w with Calls := w.Calls ++ [Call.Get (auth.Host ++ "/api/user")
        (u.Token.TokenType ++ " " ++ u.Token.AccessToken)] } ∧
    (u.Init env w auth).1.Token = u.Token := by
  unfold User.Init
  cases h : env.GetUser w.Calls.length (auth.Host ++ "/api/user")
      (u.Token.TokenType ++ " " ++ u.Token.AccessToken) with
  | error e => simp [h, World.record]
  | ok res =>
    by_cases hc : res.ResCode = OK
    · by_cases ht : res.Data.illTyped = true <;>
        simp [h, hc, ht, World.record, UserData.unmarshal]
    · simp [h, hc, World.record]

theorem Init_failed (u : User) (env : Env) (w : World) (auth : Auth)
    (hfail : (∃ e, env.GetUser w.Calls.length (auth.Host ++ "/api/user")
        (u.Token.TokenType ++ " " ++ u.Token.AccessToken) = Except.error e) ∨
      (∃ res, env.GetUser w.Calls.length (auth.Host ++ "/api/user")
        (u.Token.TokenType ++ " " ++ u.Token.AccessToken) = Except.ok res ∧
          res.ResCode ≠ OK)) :
    ∃ e, u.Init env w auth =
      (u, some e, { w with Calls := w.Calls ++ [Call.Get (auth.Host ++ "/api/user")
        (u.Token.TokenType ++ " " ++ u.Token.AccessToken)] }) := by
  unfold User.Init
  rcases hfail with ⟨e, h⟩ | ⟨res, h, hc⟩
  · exact ⟨e, by simp [h, World.record]⟩
  · exact ⟨res.ResMsg, by simp [h, hc, World.record]⟩

theorem SessionUser_loginSucceeded (ctx : Context) (u : User) :
    (loginSucceeded (ctx.SessionSet SESSION_KEY_USER (SessionValue.user u))).SessionUser =
      some u := by
  rw [loginSucceeded_eq]
  simp [Context.SessionUser, Context.SessionSet, GoMap.get_set]

/-- A callback whose code exchange succeeds: the rest of `CheckLoginFilter`. -/
theorem CheckLoginFilter_exchange_ok (a : Auth) (env : Env) (w : World) (ctx : Context)
    (token : Token) (hcode : ctx.Request.Query "code" ≠ "")
    (hreply : env.PostToken w.Calls.length (a.Host ++ "/oauth2/token?" ++
      (tokenParams a (ctx.Request.Query "code")).Encode) = (token, none))
    (herr : token.Error = "") :
    CheckLoginFilter a env w ctx =
      match ({ newUser with Token := token } : User).Init env
          { w with Calls := w.Calls ++ [Call.Post (a.Host ++ "/oauth2/token?" ++
            (tokenParams a (ctx.Request.Query "code")).Encode)] } a with
      | (user1, some _, w2) =>
        (loginSucceeded (ctx.SessionSet SESSION_KEY_USER (SessionValue.user user1)), w2)
      | (user1, none, w2) =>
        if a.AutoLoadResource = true then
          match user1.LoadResource env w2 a with
          | (_, some (Failure.panic msg), w3) => (ctx.Panic msg, w3)
          | (user2, _, w3) =>
            (loginSucceeded (ctx.SessionSet SESSION_KEY_USER (SessionValue.user user2)), w3)
        else (loginSucceeded (ctx.SessionSet SESSION_KEY_USER (SessionValue.user user1)), w2) := by
  rw [CheckLoginFilter_callback a env w ctx hcode,
    queryTokenFromOauth2_eq a env w _ token none hreply]
  simp [herr]

/-- Whatever the reply, `LoadResource` keeps the identity fields and the token. -/
theorem LoadResource_keeps (u : User) (env : Env) (w : World) (auth : Auth) :
    (u.LoadResource env w auth).1.Id = u.Id ∧
    (u.LoadResource env w auth).1.Fullname = u.Fullname ∧
    (u.LoadResource env w auth).1.Dn = u.Dn ∧
    (u.LoadResource env w auth).1.Token = u.Token := by
  unfold User.LoadResource
  cases h : env.GetUserResources w.Calls.length (auth.Host ++ "/api/userResources")
      (u.Token.TokenType ++ " " ++ u.Token.AccessToken) with
  | error e => simp [h]
  | ok res =>
    by_cases hc : res.ResCode = OK
    · cases hd : res.Data <;> simp [h, hc, hd, World.now, fillResourceMap_null]
    · simp [h, hc]

/-- Without a user under the session key the login filter answers with
`RedirectToLogin` and touches nothing else. -/
theorem CheckLoginFilter_no_user (a : Auth) (env : Env) (w : World) (ctx : Context)
    (hcode : ctx.Request.Query "code" = "") (hnone : ctx.SessionUser = none) :
    CheckLoginFilter a env w ctx = (RedirectToLogin a ctx, w) := by
  unfold CheckLoginFilter
  simp only [hcode, hnone, if_true]

theorem CurrentUser_none (a : Auth) (ctx : Context) (hnone : ctx.SessionUser = none) :
    CurrentUser a ctx =
      { Id := " AnonymousUser", Fullname := "未登录用户", Dn := "", Resources := [],
        ResourceMap := [], CacheTime := 0, Token := emptyToken } := by
  unfold CurrentUser
  rw [hnone]
  rfl

theorem toLower_idem (c : Char) : c.toLower.toLower = c.toLower := by
  by_cases h : c.toNat ≥ 65 ∧ c.toNat ≤ 90
  · have h1 : c.toLower = Char.ofNat (c.toNat + 32) := by
      simp only [Char.toLower, h, and_self, if_true]
    rw [h1]
    obtain ⟨h2, h3⟩ := h
    generalize c.toNat = n at h2 h3
    interval_cases n <;> rfl
  · have h1 : c.toLower = c := by
      simp only [Char.toLower, h, if_false]
    rw [h1, h1]

theorem ToLower_idem (lower : Char → Char) (hidem : ∀ c, lower (lower c) = lower c)
    (s : String) : ToLower lower (ToLower lower s) = ToLower lower s := by
  unfold ToLower
  simp [List.map_map, Function.comp_def, hidem]

theorem splitChars_ne_nil (sep : Char) (cs : List Char) : splitChars sep cs ≠ [] := by
  cases cs with
  | nil => simp [splitChars]
  | cons c cs =>
    unfold splitChars
    by_cases h : c = sep
    · simp [h]
    · cases hs : splitChars sep cs <;> simp [h]

theorem splitChars_mem (sep : Char) (cs : List Char) :
    ∀ seg ∈ splitChars sep cs, ∀ c ∈ seg, c ∈ cs := by
  induction cs with
  | nil => simp [splitChars]
  | cons c cs ih =>
    intro seg hseg x hx
    unfold splitChars at hseg
    by_cases h : c = sep
    · simp only [h, if_true, List.mem_cons] at hseg
      rcases hseg with hseg | hseg
      · subst hseg; simp at hx
      · exact List.mem_cons_of_mem _ (ih seg hseg x hx)
    · simp only [h, if_false] at hseg
      cases hs : splitChars sep cs with
      | nil =>
        rw [hs] at hseg
        simp only [List.mem_singleton] at hseg
        subst hseg
        simp only [List.mem_singleton] at hx
        subst hx
        exact List.mem_cons_self _ _
      | cons seg0 rest =>
        rw [hs] at hseg ih
        simp only [List.mem_cons] at hseg
        rcases hseg with hseg | hseg
        · subst hseg
          simp only [List.mem_cons] at hx
          rcases hx with hx | hx
          · subst hx; exact List.mem_cons_self _ _
          · exact List.mem_cons_of_mem _ (ih seg0 (List.mem_cons_self _ _) x hx)
        · exact List.mem_cons_of_mem _ (ih seg (List.mem_cons_of_mem _ hseg) x hx)

theorem Split_ne_nil (s : String) (sep : Char) : Split s sep ≠ [] := by
  unfold Split
  simp [splitChars_ne_nil]

/-- Every rune of a piece of a lower-cased string is a lower-cased rune. -/
theorem Split_ToLower_runes (lower : Char → Char) (v : String) (sep : Char) :
    ∀ r ∈ Split (ToLower lower v) sep, ∀ c ∈ r.data, ∃ c0, c = lower c0 := by
  intro r hr c hc
  unfold Split at hr
  simp only [List.mem_map] at hr
  obtain ⟨seg, hseg, rfl⟩ := hr
  have hmem := splitChars_mem sep (ToLower lower v).data seg hseg c hc
  simp only [ToLower, List.mem_map] at hmem
  obtain ⟨c0, -, rfl⟩ := hmem
  exact ⟨c0, rfl⟩

/-- Every piece of a lower-cased string is the lower-casing of a string. -/
theorem Split_ToLower_image (lower : Char → Char) (v : String) (sep : Char) :
    ∀ r ∈ Split (ToLower lower v) sep, ∃ s, r = ToLower lower s := by
  intro r hr
  have hlist : ∀ l : List Char, (∀ c ∈ l, ∃ c0, c = lower c0) →
      ∃ l0 : List Char, l = l0.map lower := by
    intro l
    induction l with
    | nil => exact fun _ => ⟨[], rfl⟩
    | cons c rest ih =>
      intro h
      obtain ⟨c0, hc0⟩ := h c (List.mem_cons_self _ _)
      obtain ⟨l0, hl0⟩ := ih (fun x hx => h x (List.mem_cons_of_mem _ hx))
      exact ⟨c0 :: l0, by rw [List.map_cons, ← hc0, ← hl0]⟩
  obtain ⟨l0, hl0⟩ := hlist r.data (Split_ToLower_runes lower v sep r hr)
  exact ⟨⟨l0⟩, String.ext hl0⟩

/-- With an idempotent case table the pieces of a lower-cased string are fixed
by lower-casing. -/
theorem Split_ToLower_lower (lower : Char → Char) (hidem : ∀ c, lower (lower c) = lower c)
    (v : String) (sep : Char) :
    ∀ r ∈ Split (ToLower lower v) sep, ToLower lower r = r := by
  intro r hr
  have hfix : ∀ c ∈ r.data, lower c = c := by
    intro c hc
    obtain ⟨c0, rfl⟩ := Split_ToLower_runes lower v sep r hr c hc
    exact hidem c0
  unfold ToLower
  apply String.ext
  show r.data.map lower = r.data
  conv_rhs => rw [← List.map_id r.data]
  exact List.map_congr_left hfix

theorem get_foldl_set_map {α β : Type} (f : α → String) (g : α → β) (l : List α)
    (m : GoMap β) (k : String) :
    GoMap.get (l.foldl (fun m e => GoMap.set m (f e) (g e)) m) k =
      (((l.reverse.find? (fun e => f e == k)).map g).or (GoMap.get m k)) := by
  induction l generalizing m with
  | nil => simp
  | cons e rest ih =>
    rw [List.foldl_cons, ih, GoMap.get_set, List.reverse_cons, List.find?_append]
    cases hf : List.find? (fun e => f e == k) rest.reverse with
    | some x => simp
    | none =>
      by_cases hk : k = f e
      · subst hk; simp
      · have hk2 : ¬ f e = k := fun h => hk h.symm
        simp [hk, hk2]

theorem find?_of_nodup_map {α : Type} (f : α → String) (l : List α)
    (hnd : (l.map f).Nodup) (e : α) (he : e ∈ l) :
    l.find? (fun x => f x == f e) = some e := by
  induction l with
  | nil => simp at he
  | cons x xs ih =>
    simp only [List.map_cons, List.nodup_cons] at hnd
    by_cases hx : f x = f e
    · have hxe : x = e := by
        rcases List.mem_cons.mp he with h | h
        · exact h.symm
        · exact absurd (hx ▸ List.mem_map_of_mem f h) hnd.1
      subst hxe
      simp
    · have hmem : e ∈ xs := by
        rcases List.mem_cons.mp he with h | h
        · exact absurd (by rw [h]) hx
        · exact h
      have hb : (f x == f e) = false := beq_false_of_ne hx
      simp only [List.find?, hb]
      exact ih hnd.2 hmem

/-- A table lookup after `NewAuthService`'s loop, key by key. -/
theorem get_buildUrlControl (lower : Char → Char) (entries : List (String × String)) (key : String) :
    GoMap.get (buildUrlControl lower entries) key =
      (entries.reverse.find? (fun e => ToLower lower e.1 == key)).map
        (fun e => Split (ToLower lower e.2) '|') := by
  unfold buildUrlControl
  rw [get_foldl_set_map (fun e : String × String => ToLower lower e.1)
    (fun e : String × String => Split (ToLower lower e.2) '|')]
  simp [GoMap.get]

/-- With keys distinct after lower-casing every entry is found under its key. -/
theorem get_buildUrlControl_of_mem (lower : Char → Char) (entries : List (String × String))
    (hnd : (entries.map (fun e => ToLower lower e.1)).Nodup) (e : String × String)
    (he : e ∈ entries) :
    GoMap.get (buildUrlControl lower entries) (ToLower lower e.1) = some (Split (ToLower lower e.2) '|') := by
  rw [get_buildUrlControl]
  have hnd2 : (entries.reverse.map (fun e => ToLower lower e.1)).Nodup := by
    rw [List.map_reverse]
    exact List.nodup_reverse.mpr hnd
  rw [find?_of_nodup_map (fun e : String × String => ToLower lower e.1) entries.reverse hnd2 e
    (List.mem_reverse.mpr he)]
  rfl

/-- Every rule of a built table is a split of a lower-cased value. -/
theorem buildUrlControl_rule (lower : Char → Char) (entries : List (String × String)) (key : String)
    (rs : List String) (h : GoMap.get (buildUrlControl lower entries) key = some rs) :
    ∃ e ∈ entries, ToLower lower e.1 = key ∧ rs = Split (ToLower lower e.2) '|' := by
  rw [get_buildUrlControl] at h
  cases hf : entries.reverse.find? (fun e => ToLower lower e.1 == key) with
  | none => rw [hf] at h; simp at h
  | some e =>
    rw [hf] at h
    simp only [Option.map_some', Option.some.injEq] at h
    have hmem := List.mem_of_find?_eq_some hf
    have hp := List.find?_some hf
    exact ⟨e, List.mem_reverse.mp hmem, by simpa using hp, h.symm⟩

/-- The table of a service that `NewAuthService` returned. -/
theorem NewAuthService_UrlControl_eq (lower : Char → Char) (config : Config) (a : Auth)
    (h : NewAuthService lower (some config) = Except.ok a) :
    a.UrlControl = buildUrlControl lower config.UrlControl := by
  unfold NewAuthService at h
  simp only at h
  split at h
  · cases h
  · split at h
    · cases h
    · cases h
      rfl

theorem rangeResources_nil_map (rs : List String) (h : rs ≠ []) :
    rangeResources [] rs = false := by
  cases rs with
  | nil => exact absurd rfl h
  | cons v rest => simp [rangeResources, GoMap.get]

theorem splitChars_no_sep (sep : Char) (cs : List Char) :
    ∀ seg ∈ splitChars sep cs, sep ∉ seg := by
  induction cs with
  | nil => simp [splitChars]
  | cons c cs ih =>
    intro seg hseg
    unfold splitChars at hseg
    by_cases h : c = sep
    · simp only [h, if_true, List.mem_cons] at hseg
      rcases hseg with hseg | hseg
      · subst hseg; simp
      · exact ih seg hseg
    · simp only [h, if_false] at hseg
      cases hs : splitChars sep cs with
      | nil =>
        rw [hs] at hseg
        simp only [List.mem_singleton] at hseg
        subst hseg
        simpa using fun h2 => h h2.symm
      | cons seg0 rest =>
        rw [hs] at hseg ih
        simp only [List.mem_cons] at hseg
        rcases hseg with hseg | hseg
        · subst hseg
          have := ih seg0 (List.mem_cons_self _ _)
          simp only [List.mem_cons, not_or]
          exact ⟨fun h2 => h h2.symm, this⟩
        · exact ih seg (List.mem_cons_of_mem _ hseg)

theorem splitChars_join (sep : Char) (cs : List Char) :
    List.intercalate [sep] (splitChars sep cs) = cs := by
  induction cs with
  | nil => simp [splitChars, List.intercalate]
  | cons c cs ih =>
    unfold splitChars
    by_cases h : c = sep
    · simp only [h, if_true]
      cases hs : splitChars sep cs with
      | nil => exact absurd hs (splitChars_ne_nil sep cs)
      | cons seg0 rest =>
        rw [hs] at ih
        rw [← ih]
        simp [List.intercalate, List.intersperse]
    · simp only [h, if_false]
      cases hs : splitChars sep cs with
      | nil => exact absurd hs (splitChars_ne_nil sep cs)
      | cons seg0 rest =>
        rw [hs] at ih
        rw [← ih]
        cases rest <;> simp [List.intercalate, List.intersperse]

/-- `Split` cuts at every separator: no piece holds one, and the pieces joined
by the separator give the string back. -/
theorem Split_spec (s : String) (sep : Char) :
    (∀ r ∈ Split s sep, sep ∉ r.data) ∧
    List.intercalate [sep] ((Split s sep).map String.data) = s.data := by
  unfold Split
  constructor
  · intro r hr
    simp only [List.mem_map] at hr
    obtain ⟨seg, hseg, rfl⟩ := hr
    exact splitChars_no_sep sep s.data seg hseg
  · rw [List.map_map]
    have : (String.data ∘ String.mk) = id := by
      funext x; rfl
    rw [this, List.map_id]
    exact splitChars_join sep s.data

/-! ## C1: the authority decision -/

/-- C1. `CheckAuthorityFilter` leaves the context untouched (no status, no
body) exactly when the rule at the lower-cased pattern and the rule at
`lower(method):lower(pattern)` are each absent or have all their keys in the
current user's resource map; otherwise it appends the 403 denial (status and
message for an XHR request, the framework's 403 otherwise) and changes nothing
else. With neither rule present the request passes. -/
theorem CheckAuthorityFilter_pass_iff (lower : Char → Char) (a : Auth) (ctx : Context) (p : String) :
    (CheckAuthorityFilter lower a ctx p = ctx ↔
      ((GoMap.get a.UrlControl (ToLower lower p) = none ∨
          ∃ rs, GoMap.get a.UrlControl (ToLower lower p) = some rs ∧
            ∀ v ∈ rs, (GoMap.get (CurrentUser a ctx).ResourceMap v).isSome = true) ∧
        (GoMap.get a.UrlControl (ToLower lower ctx.Request.Method ++ ":" ++ ToLower lower p) = none ∨
          ∃ rs, GoMap.get a.UrlControl (ToLower lower ctx.Request.Method ++ ":" ++ ToLower lower p)
              = some rs ∧
            ∀ v ∈ rs, (GoMap.get (CurrentUser a ctx).ResourceMap v).isSome = true))) ∧
    (CheckAuthorityFilter lower a ctx p = ctx ∨
      CheckAuthorityFilter lower a ctx p =
        { ctx with Written := ctx.Written ++
            (if ctx.Request.Header "x-requested-with" = XHR
              then [Output.WriteHeader 403, Output.WriteString DeniedMessage]
              else [Output.Exception 403]) }) ∧
    (GoMap.get a.UrlControl (ToLower lower p) = none ∧
        GoMap.get a.UrlControl (ToLower lower ctx.Request.Method ++ ":" ++ ToLower lower p) = none →
      CheckAuthorityFilter lower a ctx p = ctx) := by
  have h1 := rule_pass_iff a.UrlControl (CurrentUser a ctx).ResourceMap (ToLower lower p)
  have h2 := rule_pass_iff a.UrlControl (CurrentUser a ctx).ResourceMap
    (ToLower lower ctx.Request.Method ++ ":" ++ ToLower lower p)
  obtain ⟨b1, hb1⟩ : ∃ b, (match GoMap.get a.UrlControl (ToLower lower p) with
      | some resources => rangeResources (CurrentUser a ctx).ResourceMap resources
      | none => true) = b := ⟨_, rfl⟩
  obtain ⟨b2, hb2⟩ : ∃ b,
      (match GoMap.get a.UrlControl (ToLower lower ctx.Request.Method ++ ":" ++ ToLower lower p) with
      | some resources => rangeResources (CurrentUser a ctx).ResourceMap resources
      | none => true) = b := ⟨_, rfl⟩
  have key := CheckAuthorityFilter_cases lower a ctx p b1 b2 hb1 hb2
  rw [hb1] at h1
  rw [hb2] at h2
  have hne : ({ ctx with Written := ctx.Written ++
            (if ctx.Request.Header "x-requested-with" = XHR
              then [Output.WriteHeader 403, Output.WriteString DeniedMessage]
              else [Output.Exception 403]) } : Context) ≠ ctx := by
    by_cases hx : ctx.Request.Header "x-requested-with" = XHR
    · simp only [hx, if_true]; exact written_append_ne ctx _ _
    · simp only [hx, if_false]; exact written_append_ne ctx _ _
  have h3 : GoMap.get a.UrlControl (ToLower lower p) = none → b1 = true :=
    fun hu => h1.mpr (Or.inl hu)
  have h4 : GoMap.get a.UrlControl (ToLower lower ctx.Request.Method ++ ":" ++ ToLower lower p) = none →
      b2 = true := fun hk => h2.mpr (Or.inl hk)
  rw [← h1, ← h2, key]
  refine ⟨?_, ?_, ?_⟩
  · cases b1 <;> cases b2 <;> simp [hne]
  · cases b1 <;> cases b2 <;> simp
  · rintro ⟨hu, hk⟩
    simp [h3 hu, h4 hk]

/-! ## C2: when a cached user is refreshed -/

/-- C2. For a request without `code` whose session holds a user with cache time
`t0`, `CheckLoginFilter` sends the resource request (exactly that one call)
if and only if `AutoLoadResource` is set and `now - t0 > CacheExpire` in
`int64` arithmetic; it never sends more than that one call; and in every other
case it makes no provider call and returns the context (session, response)
untouched. For a difference inside the `int64` range the subtraction is the
integer one. -/
theorem CheckLoginFilter_refresh_iff (a : Auth) (env : Env) (w : World) (ctx : Context)
    (user : User) (hcode : ctx.Request.Query "code" = "")
    (huser : ctx.SessionUser = some user) :
    ((CheckLoginFilter a env w ctx).2.Calls =
        w.Calls ++ [Call.Get (a.Host ++ "/api/userResources")
          (user.Token.TokenType ++ " " ++ user.Token.AccessToken)] ↔
      (a.AutoLoadResource = true ∧
        sub64 (env.Now w.Reads) user.CacheTime > a.CacheExpire)) ∧
    ((CheckLoginFilter a env w ctx).2.Calls = w.Calls ∨
      (CheckLoginFilter a env w ctx).2.Calls =
        w.Calls ++ [Call.Get (a.Host ++ "/api/userResources")
          (user.Token.TokenType ++ " " ++ user.Token.AccessToken)]) ∧
    (¬ (a.AutoLoadResource = true ∧
        sub64 (env.Now w.Reads) user.CacheTime > a.CacheExpire) →
      (CheckLoginFilter a env w ctx).2.Calls = w.Calls ∧
      (CheckLoginFilter a env w ctx).1 = ctx) ∧
    (-(2 : Int) ^ 63 ≤ env.Now w.Reads - user.CacheTime ∧
        env.Now w.Reads - user.CacheTime < (2 : Int) ^ 63 →
      sub64 (env.Now w.Reads) user.CacheTime = env.Now w.Reads - user.CacheTime) := by
  have hfresh := CheckLoginFilter_fresh a env w ctx user hcode huser
  refine ⟨⟨?_, fun h => CheckLoginFilter_stale_calls a env w ctx user hcode huser h.1 h.2⟩,
    ?_, hfresh, ?_⟩
  · intro h
    by_contra hn
    rw [(hfresh hn).1] at h
    have := congrArg List.length h
    simp at this
  · by_cases hs : a.AutoLoadResource = true ∧
        sub64 (env.Now w.Reads) user.CacheTime > a.CacheExpire
    · exact Or.inr (CheckLoginFilter_stale_calls a env w ctx user hcode huser hs.1 hs.2)
    · exact Or.inl (hfresh hs).1
  · rintro ⟨h1, h2⟩
    exact sub64_of_inRange _ _ h1 h2

/-- C2, at a session stamped at second 1000 with sixty seconds of cache life,
read at second 1061: the resource request is sent. -/
theorem CheckLoginFilter_refresh_iff_witness :
    exCtx.Request.Query "code" = "" ∧ exCtx.SessionUser = some exUser ∧
    ((CheckLoginFilter exAuth (exEnv 1061) exWorld exCtx).2.Calls =
        exWorld.Calls ++ [Call.Get (exAuth.Host ++ "/api/userResources")
          (exUser.Token.TokenType ++ " " ++ exUser.Token.AccessToken)] ↔
      (exAuth.AutoLoadResource = true ∧
        sub64 ((exEnv 1061).Now exWorld.Reads) exUser.CacheTime > exAuth.CacheExpire)) :=
  ⟨by decide, by decide,
    (CheckLoginFilter_refresh_iff exAuth (exEnv 1061) exWorld exCtx exUser
      (by decide) (by decide)).1⟩

/-! ## C3: a refresh that fails -/

/-- C3. When the refresh is attempted and the resource fetch fails (transport
error, `res_code` other than OK, or data that does not decode), the filter
answers with `RedirectToLogin` (401 and a message for an XHR request, else a
302 redirect to the authorize endpoint), leaves the session store as it was,
and has made the one resource request only. -/
theorem CheckLoginFilter_refresh_failed (a : Auth) (env : Env) (w : World) (ctx : Context)
    (user : User) (hcode : ctx.Request.Query "code" = "")
    (huser : ctx.SessionUser = some user)
    (hauto : a.AutoLoadResource = true)
    (hstale : sub64 (env.Now w.Reads) user.CacheTime > a.CacheExpire)
    (hfail : (∃ e, env.GetUserResources w.Calls.length (a.Host ++ "/api/userResources")
        (user.Token.TokenType ++ " " ++ user.Token.AccessToken) = Except.error e) ∨
      (∃ res, env.GetUserResources w.Calls.length (a.Host ++ "/api/userResources")
        (user.Token.TokenType ++ " " ++ user.Token.AccessToken) = Except.ok res ∧
          res.ResCode ≠ OK) ∨
      (∃ res left, env.GetUserResources w.Calls.length (a.Host ++ "/api/userResources")
        (user.Token.TokenType ++ " " ++ user.Token.AccessToken) = Except.ok res ∧
          res.Data = ResourcesData.failed left)) :
    (CheckLoginFilter a env w ctx).1 = RedirectToLogin a ctx ∧
    (CheckLoginFilter a env w ctx).1.CruSession = ctx.CruSession ∧
    (CheckLoginFilter a env w ctx).1.Written = ctx.Written ++
      (if ctx.Request.Header "x-requested-with" = XHR
        then [Output.WriteHeader 401, Output.WriteString UnauthorizedMessage]
        else [Output.Redirect 302
          (a.Host ++ "/oauth2/authorize?" ++ (authorizeParams a ctx.Request.URI).Encode)]) ∧
    (CheckLoginFilter a env w ctx).2.Calls =
      w.Calls ++ [Call.Get (a.Host ++ "/api/userResources")
        (user.Token.TokenType ++ " " ++ user.Token.AccessToken)] := by
  obtain ⟨u1, e, hl, -⟩ := LoadResource_failed user env { w with Reads := w.Reads + 1 } a hfail
  have hres : CheckLoginFilter a env w ctx =
      (RedirectToLogin a ctx, { Calls := w.Calls ++ [Call.Get (a.Host ++ "/api/userResources")
        (user.Token.TokenType ++ " " ++ user.Token.AccessToken)], Reads := w.Reads + 1 }) := by
    rw [CheckLoginFilter_cached a env w ctx user hcode huser, if_pos hauto, if_pos hstale, hl]
  rw [hres]
  refine ⟨rfl, ?_, ?_, rfl⟩
  · unfold RedirectToLogin
    by_cases hx : ctx.Request.Header "x-requested-with" = XHR <;>
      simp [hx, Context.WriteHeader, Context.WriteString, Context.Redirect]
  · unfold RedirectToLogin
    by_cases hx : ctx.Request.Header "x-requested-with" = XHR <;>
      simp [hx, Context.WriteHeader, Context.WriteString, Context.Redirect, StatusFound]

/-- C3, with the resource endpoint unreachable: the browser is sent to the
authorize endpoint and the session still holds the old user. -/
theorem CheckLoginFilter_refresh_failed_witness :
    (CheckLoginFilter exAuth (exEnvNoResources 1061) exWorld exCtx).1 =
      RedirectToLogin exAuth exCtx ∧
    (CheckLoginFilter exAuth (exEnvNoResources 1061) exWorld exCtx).1.CruSession =
      exCtx.CruSession :=
  ⟨(CheckLoginFilter_refresh_failed exAuth (exEnvNoResources 1061) exWorld exCtx exUser
      (by decide) (by decide) (by decide) (by decide)
      (Or.inl ⟨"connection refused", rfl⟩)).1,
   (CheckLoginFilter_refresh_failed exAuth (exEnvNoResources 1061) exWorld exCtx exUser
      (by decide) (by decide) (by decide) (by decide)
      (Or.inl ⟨"connection refused", rfl⟩)).2.1⟩

/-! ## C4: what a successful `LoadResource` leaves -/

/-- C4. When the resource list `rs` is fetched and decoded, `LoadResource`
returns no error and rebuilds the resource map from `rs` alone: a key is in
the new map iff some resource of `rs` has it as `Data`, it is mapped to the
last such resource (so nothing of the old map is kept), `CacheTime` is the
clock reading taken, and `Id`, `Fullname`, `Dn` and `Token` are as before. -/
theorem LoadResource_rebuilds (u : User) (env : Env) (w : World) (auth : Auth)
    (res : ResponseBody ResourcesData) (rs : List Resource)
    (hreply : env.GetUserResources w.Calls.length (auth.Host ++ "/api/userResources")
      (u.Token.TokenType ++ " " ++ u.Token.AccessToken) = Except.ok res)
    (hok : res.ResCode = OK) (hdata : res.Data = ResourcesData.decoded rs) :
    (u.LoadResource env w auth).2.1 = none ∧
    (∀ k, (GoMap.get (u.LoadResource env w auth).1.ResourceMap k).isSome = true ↔
      ∃ r ∈ rs, r.Data = k) ∧
    (∀ k, GoMap.get (u.LoadResource env w auth).1.ResourceMap k =
      rs.reverse.find? (fun r => r.Data == k)) ∧
    (u.LoadResource env w auth).1.Resources = rs ∧
    (u.LoadResource env w auth).1.CacheTime = env.Now w.Reads ∧
    (u.LoadResource env w auth).1.Id = u.Id ∧
    (u.LoadResource env w auth).1.Fullname = u.Fullname ∧
    (u.LoadResource env w auth).1.Dn = u.Dn ∧
    (u.LoadResource env w auth).1.Token = u.Token := by
  rw [LoadResource_ok u env w auth res rs hreply hok hdata]
  refine ⟨rfl, ?_, ?_, rfl, rfl, rfl, rfl, rfl, rfl⟩
  · intro k
    simp only [get_buildResourceMap]
    rw [List.find?_isSome]
    simp
  · intro k
    exact get_buildResourceMap rs k

/-- C4, for `exUser` and a provider that issues `manage_users` only: the old key
is gone. -/
theorem LoadResource_rebuilds_witness :
    (exUser.LoadResource (exEnv 1061) exWorld exAuth).2.1 = none ∧
    (∀ k, (GoMap.get (exUser.LoadResource (exEnv 1061) exWorld exAuth).1.ResourceMap k).isSome
        = true ↔ ∃ r ∈ [exResource 2 "manage_users"], r.Data = k) :=
  ⟨(LoadResource_rebuilds exUser (exEnv 1061) exWorld exAuth
      { ResCode := 0, ResMsg := "ok",
        Data := ResourcesData.decoded [exResource 2 "manage_users"] }
      [exResource 2 "manage_users"] rfl rfl rfl).1,
   (LoadResource_rebuilds exUser (exEnv 1061) exWorld exAuth
      { ResCode := 0, ResMsg := "ok",
        Data := ResourcesData.decoded [exResource 2 "manage_users"] }
      [exResource 2 "manage_users"] rfl rfl rfl).2.1⟩

/-! ## C5: a cache life of zero or less -/

/-- C5 fails as stated: with auto-load on and a cache life of zero, a request
arriving in the second in which the user was stamped (`now = t0 = 1000`) makes
no provider call and leaves the context as it was. -/
theorem zero_ttl_same_second_no_refresh :
    exAuthZero.AutoLoadResource = true ∧ exAuthZero.CacheExpire ≤ 0 ∧
    exCtx.Request.Query "code" = "" ∧ exCtx.SessionUser = some exUser ∧
    exUser.CacheTime ≤ (exEnv 1000).Now exWorld.Reads ∧
    CheckLoginFilter exAuthZero (exEnv 1000) exWorld exCtx =
      (exCtx, { Calls := [], Reads := 1 }) := by
  decide

/-- C5, amended. With auto-load on and a cache life of zero or less, a request
that finds a cached user stamped at `t0 ≤ now` (the difference inside the
`int64` range) sends the resource request if and only if the cache life is
negative or `t0 < now`; with a cache life of zero and `now = t0` it makes no
provider call and leaves the context as it was. -/
theorem CheckLoginFilter_nonpositive_ttl (a : Auth) (env : Env) (w : World) (ctx : Context)
    (user : User) (hcode : ctx.Request.Query "code" = "")
    (huser : ctx.SessionUser = some user)
    (hauto : a.AutoLoadResource = true) (httl : a.CacheExpire ≤ 0)
    (hnow : user.CacheTime ≤ env.Now w.Reads)
    (hrange : env.Now w.Reads - user.CacheTime < (2 : Int) ^ 63) :
    ((CheckLoginFilter a env w ctx).2.Calls =
        w.Calls ++ [Call.Get (a.Host ++ "/api/userResources")
          (user.Token.TokenType ++ " " ++ user.Token.AccessToken)] ↔
      (a.CacheExpire < 0 ∨ user.CacheTime < env.Now w.Reads)) ∧
    (a.CacheExpire = 0 → env.Now w.Reads = user.CacheTime →
      (CheckLoginFilter a env w ctx).2.Calls = w.Calls ∧
      (CheckLoginFilter a env w ctx).1 = ctx) := by
  have hsub : sub64 (env.Now w.Reads) user.CacheTime = env.Now w.Reads - user.CacheTime :=
    sub64_of_inRange _ _ (by omega) hrange
  have hfresh := CheckLoginFilter_fresh a env w ctx user hcode huser
  rw [hsub] at hfresh
  refine ⟨⟨?_, ?_⟩, ?_⟩
  · intro h
    by_contra hn
    have h3 := (hfresh (by rintro ⟨-, h4⟩; omega)).1
    rw [h3] at h
    have := congrArg List.length h
    simp at this
  · intro h
    exact CheckLoginFilter_stale_calls a env w ctx user hcode huser hauto (by rw [hsub]; omega)
  · intro h0 heq
    exact hfresh (by rintro ⟨-, h4⟩; omega)

/-- C5 amended, at a cache life of zero read one second after the stamp. -/
theorem CheckLoginFilter_nonpositive_ttl_witness :
    (CheckLoginFilter exAuthZero (exEnv 1001) exWorld exCtx).2.Calls =
        exWorld.Calls ++ [Call.Get (exAuthZero.Host ++ "/api/userResources")
          (exUser.Token.TokenType ++ " " ++ exUser.Token.AccessToken)] ↔
      (exAuthZero.CacheExpire < 0 ∨ exUser.CacheTime < (exEnv 1001).Now exWorld.Reads) :=
  (CheckLoginFilter_nonpositive_ttl exAuthZero (exEnv 1001) exWorld exCtx exUser
    (by decide) (by decide) (by decide) (by decide) (by decide) (by decide)).1

/-! ## C6: no cached user -/

/-- C6. A request without `code` on a session without a user makes no provider
call, leaves the world and the session as they were, and is answered by a 302
redirect to `<Host>/oauth2/authorize` whose query is `client_id` (decimal),
`redirect_uri`, `response_type=code`, `scope` and `state` = the request URI,
each value escaped, or for an XHR request by status 401 and a message. -/
theorem CheckLoginFilter_no_session (a : Auth) (env : Env) (w : World) (ctx : Context)
    (hcode : ctx.Request.Query "code" = "") (hnone : ctx.SessionUser = none) :
    (CheckLoginFilter a env w ctx).2 = w ∧
    (CheckLoginFilter a env w ctx).1.CruSession = ctx.CruSession ∧
    (CheckLoginFilter a env w ctx).1.Request = ctx.Request ∧
    (ctx.Request.Header "x-requested-with" ≠ XHR →
      (CheckLoginFilter a env w ctx).1.Written = ctx.Written ++
        [Output.Redirect 302 (a.Host ++ "/oauth2/authorize?" ++
          ("client_id=" ++ QueryEscape (FormatInt a.ClientId) ++
           "&redirect_uri=" ++ QueryEscape a.RedirectUri ++
           "&response_type=code" ++
           "&scope=" ++ QueryEscape a.Scope ++
           "&state=" ++ QueryEscape ctx.Request.URI))]) ∧
    (ctx.Request.Header "x-requested-with" = XHR →
      (CheckLoginFilter a env w ctx).1.Written = ctx.Written ++
        [Output.WriteHeader 401, Output.WriteString UnauthorizedMessage]) := by
  have hres : CheckLoginFilter a env w ctx = (RedirectToLogin a ctx, w) := by
    unfold CheckLoginFilter
    simp only [hcode, hnone, if_true]
  rw [hres, RedirectToLogin_eq, authorizeParams_Encode]
  refine ⟨rfl, rfl, rfl, ?_, ?_⟩
  · intro hx
    simp [hx]
  · intro hx
    simp [hx]

/-- C6, for a browser request on an empty session. -/
theorem CheckLoginFilter_no_session_witness :
    (CheckLoginFilter exAuth (exEnv 1061) exWorld exCtxAnonymous).2 = exWorld ∧
    (CheckLoginFilter exAuth (exEnv 1061) exWorld exCtxAnonymous).1.CruSession =
      exCtxAnonymous.CruSession :=
  ⟨(CheckLoginFilter_no_session exAuth (exEnv 1061) exWorld exCtxAnonymous
      (by decide) (by decide)).1,
   (CheckLoginFilter_no_session exAuth (exEnv 1061) exWorld exCtxAnonymous
      (by decide) (by decide)).2.1⟩

/-! ## C7: the code exchange -/

/-- C7. `queryTokenFromOauth2` sends one POST and returns an error iff the
call itself failed (transport or decoding) or the decoded token has a
non-empty `error`; the transport error is returned as it is, the provider
error is `error + ":" + error_description`, and a token with an empty `error`
is returned with a nil error. -/
theorem queryTokenFromOauth2_error_iff (a : Auth) (env : Env) (w : World) (code : String) :
    ((queryTokenFromOauth2 a env w code).2.1 ≠ none ↔
      ((env.PostToken w.Calls.length
          (a.Host ++ "/oauth2/token?" ++ (tokenParams a code).Encode)).2 ≠ none ∨
       (env.PostToken w.Calls.length
          (a.Host ++ "/oauth2/token?" ++ (tokenParams a code).Encode)).1.Error ≠ "")) ∧
    (∀ e, (env.PostToken w.Calls.length
          (a.Host ++ "/oauth2/token?" ++ (tokenParams a code).Encode)).2 = some e →
      (queryTokenFromOauth2 a env w code).2.1 = some e) ∧
    ((env.PostToken w.Calls.length
          (a.Host ++ "/oauth2/token?" ++ (tokenParams a code).Encode)).2 = none ∧
      (env.PostToken w.Calls.length
          (a.Host ++ "/oauth2/token?" ++ (tokenParams a code).Encode)).1.Error ≠ "" →
      (queryTokenFromOauth2 a env w code).2.1 =
        some ((env.PostToken w.Calls.length
            (a.Host ++ "/oauth2/token?" ++ (tokenParams a code).Encode)).1.Error ++ ":" ++
          (env.PostToken w.Calls.length
            (a.Host ++ "/oauth2/token?" ++ (tokenParams a code).Encode)).1.ErrorDescription)) ∧
    ((env.PostToken w.Calls.length
          (a.Host ++ "/oauth2/token?" ++ (tokenParams a code).Encode)).2 = none ∧
      (env.PostToken w.Calls.length
          (a.Host ++ "/oauth2/token?" ++ (tokenParams a code).Encode)).1.Error = "" →
      (queryTokenFromOauth2 a env w code).1 =
        (env.PostToken w.Calls.length
          (a.Host ++ "/oauth2/token?" ++ (tokenParams a code).Encode)).1 ∧
      (queryTokenFromOauth2 a env w code).2.1 = none) ∧
    (queryTokenFromOauth2 a env w code).2.2.Calls =
      w.Calls ++ [Call.Post (a.Host ++ "/oauth2/token?" ++ (tokenParams a code).Encode)] := by
  rcases hr : env.PostToken w.Calls.length
      (a.Host ++ "/oauth2/token?" ++ (tokenParams a code).Encode) with ⟨token, err⟩
  rw [queryTokenFromOauth2_eq a env w code token err hr]
  cases err with
  | some e => simp
  | none =>
    by_cases he : token.Error = "" <;> simp [he]

/-! ## C8: a callback whose exchange fails -/

/-- C8 fails as stated: an XHR callback whose exchange is refused with
`invalid_grant` is answered by status 401 and a message, not by a redirect. -/
theorem exchange_failed_xhr_no_redirect :
    exCtxCallbackXHR.Request.Query "code" ≠ "" ∧
    (queryTokenFromOauth2 exAuth (exEnvInvalidGrant 1061) exWorld
      (exCtxCallbackXHR.Request.Query "code")).2.1 = some "invalid_grant:code expired" ∧
    (CheckLoginFilter exAuth (exEnvInvalidGrant 1061) exWorld exCtxCallbackXHR).1.Written =
      [Output.WriteHeader 401, Output.WriteString UnauthorizedMessage] := by
  decide

/-- C8, amended. A callback (non-empty `code`) whose code exchange fails leaves
the session store as it was, makes the one token request and no other provider
call, and is answered by `RedirectToLogin`: the 302 redirect to the authorize
endpoint for a browser, status 401 and a message for an XHR request. -/
theorem CheckLoginFilter_exchange_failed_response (a : Auth) (env : Env) (w : World)
    (ctx : Context) (hcode : ctx.Request.Query "code" ≠ "")
    (hfail : (env.PostToken w.Calls.length (a.Host ++ "/oauth2/token?" ++
          (tokenParams a (ctx.Request.Query "code")).Encode)).2 ≠ none ∨
      (env.PostToken w.Calls.length (a.Host ++ "/oauth2/token?" ++
          (tokenParams a (ctx.Request.Query "code")).Encode)).1.Error ≠ "") :
    (CheckLoginFilter a env w ctx).1.CruSession = ctx.CruSession ∧
    (CheckLoginFilter a env w ctx).2.Calls =
      w.Calls ++ [Call.Post (a.Host ++ "/oauth2/token?" ++
        (tokenParams a (ctx.Request.Query "code")).Encode)] ∧
    (CheckLoginFilter a env w ctx).1.Written = ctx.Written ++
      (if ctx.Request.Header "x-requested-with" = XHR
        then [Output.WriteHeader 401, Output.WriteString UnauthorizedMessage]
        else [Output.Redirect 302
          (a.Host ++ "/oauth2/authorize?" ++ (authorizeParams a ctx.Request.URI).Encode)]) := by
  rw [CheckLoginFilter_exchange_failed a env w ctx hcode hfail, RedirectToLogin_eq]
  exact ⟨rfl, rfl, rfl⟩

/-- C8 amended, for a browser callback refused with `invalid_grant`. -/
theorem CheckLoginFilter_exchange_failed_response_witness :
    (CheckLoginFilter exAuth (exEnvInvalidGrant 1061) exWorld exCtxCallback).1.CruSession =
      exCtxCallback.CruSession :=
  (CheckLoginFilter_exchange_failed_response exAuth (exEnvInvalidGrant 1061) exWorld
    exCtxCallback (by decide) (Or.inr (by decide))).1

/-! ## C9: the identity fetch on a callback -/

/-- C9 fails as stated: with the user endpoint unreachable the identity fetch
fails, and the callback still stores a user (empty identity, the exchanged
token) and answers with the login-success redirect. -/
theorem identity_failed_still_stored :
    exCtxCallback.Request.Query "code" ≠ "" ∧
    (queryTokenFromOauth2 exAuth (exEnvNoIdentity 1061) exWorld "abc").2.1 = none ∧
    (exEnvNoIdentity 1061).GetUser 1 "https://sso/api/user" "Bearer tok" =
      Except.error "connection refused" ∧
    (CheckLoginFilter exAuth (exEnvNoIdentity 1061) exWorld exCtxCallback).1.SessionUser =
      some { newUser with Token := exToken } ∧
    (CheckLoginFilter exAuth (exEnvNoIdentity 1061) exWorld exCtxCallback).1.Written =
      [Output.Redirect 302 "/admin"] :=
  ⟨by decide, by decide, rfl, by decide, by decide⟩

/-- A decoded resource list with a null element makes the callback panic after
the resource request: no user is stored, no answer is written. -/
theorem CheckLoginFilter_callback_null_resource_panics :
    (CheckLoginFilter exAuth (exEnvNullResource 1061) exWorld exCtxCallback).1 =
      exCtxCallback.Panic NilDereference ∧
    (CheckLoginFilter exAuth (exEnvNullResource 1061) exWorld exCtxCallback).1.SessionUser =
      none := by
  decide

/-- C9, amended. On a callback whose code exchange succeeds the identity fetch
is always made, right after the exchange and with the exchanged token, and its
failure does not stop the login: whenever the resource reply is not a list
with a null element (on which `LoadResource` panics), a user carrying the
exchanged token is stored in the session and the login-success answer is
given. When the identity fetch succeeds the stored user carries the `id`,
`fullname` and `dn` of the provider's payload; when it fails at transport
level or by its `res_code` the stored user is the fresh one (empty identity)
and no resource fetch is made. -/
theorem CheckLoginFilter_callback_stores (a : Auth) (env : Env) (w : World) (ctx : Context)
    (token : Token) (hcode : ctx.Request.Query "code" ≠ "")
    (hreply : env.PostToken w.Calls.length (a.Host ++ "/oauth2/token?" ++
      (tokenParams a (ctx.Request.Query "code")).Encode) = (token, none))
    (herr : token.Error = "")
    (hnonull : ∀ res before after,
      env.GetUserResources (w.Calls.length + 2) (a.Host ++ "/api/userResources")
        (token.TokenType ++ " " ++ token.AccessToken) = Except.ok res →
      res.Data ≠ ResourcesData.withNull before after) :
    ∃ stored : User,
      (CheckLoginFilter a env w ctx).1 =
        loginSucceeded (ctx.SessionSet SESSION_KEY_USER (SessionValue.user stored)) ∧
      (CheckLoginFilter a env w ctx).1.SessionUser = some stored ∧
      stored.Token = token ∧
      (CheckLoginFilter a env w ctx).2.Calls.take (w.Calls.length + 2) =
        w.Calls ++ [Call.Post (a.Host ++ "/oauth2/token?" ++
            (tokenParams a (ctx.Request.Query "code")).Encode),
          Call.Get (a.Host ++ "/api/user") (token.TokenType ++ " " ++ token.AccessToken)] ∧
      (∀ res, env.GetUser (w.Calls.length + 1) (a.Host ++ "/api/user")
            (token.TokenType ++ " " ++ token.AccessToken) = Except.ok res →
          res.ResCode = OK → res.Data.illTyped = false →
        stored.Id = res.Data.id.getD "" ∧ stored.Fullname = res.Data.fullname.getD "" ∧
        stored.Dn = res.Data.dn.getD "") ∧
      (((∃ e, env.GetUser (w.Calls.length + 1) (a.Host ++ "/api/user")
            (token.TokenType ++ " " ++ token.AccessToken) = Except.error e) ∨
        (∃ res, env.GetUser (w.Calls.length + 1) (a.Host ++ "/api/user")
            (token.TokenType ++ " " ++ token.AccessToken) = Except.ok res ∧
          res.ResCode ≠ OK)) →
        stored = { newUser with Token := token } ∧
        (CheckLoginFilter a env w ctx).2.Calls =
          w.Calls ++ [Call.Post (a.Host ++ "/oauth2/token?" ++
              (tokenParams a (ctx.Request.Query "code")).Encode),
            Call.Get (a.Host ++ "/api/user")
              (token.TokenType ++ " " ++ token.AccessToken)]) := by
  rw [CheckLoginFilter_exchange_ok a env w ctx token hcode hreply herr]
  have hI := Init_calls ({ newUser with Token := token } : User) env
    { w with Calls := w.Calls ++ [Call.Post (a.Host ++ "/oauth2/token?" ++
      (tokenParams a (ctx.Request.Query "code")).Encode)] } a
  have hOk := Init_ok ({ newUser with Token := token } : User) env
    { w with Calls := w.Calls ++ [Call.Post (a.Host ++ "/oauth2/token?" ++
      (tokenParams a (ctx.Request.Query "code")).Encode)] } a
  have hBad := Init_failed ({ newUser with Token := token } : User) env
    { w with Calls := w.Calls ++ [Call.Post (a.Host ++ "/oauth2/token?" ++
      (tokenParams a (ctx.Request.Query "code")).Encode)] } a
  simp only [List.length_append, List.length_singleton] at hOk hBad
  rcases hi : ({ newUser with Token := token } : User).Init env
      { w with Calls := w.Calls ++ [Call.Post (a.Host ++ "/oauth2/token?" ++
        (tokenParams a (ctx.Request.Query "code")).Encode)] } a with ⟨u1, e1, w2⟩
  rw [hi] at hI hOk hBad
  obtain ⟨hw2, htok⟩ := hI
  simp only at hw2 htok
  subst hw2
  cases e1 with
  | some e1 =>
    refine ⟨u1, rfl, SessionUser_loginSucceeded ctx u1, htok, ?_, ?_, ?_⟩
    · simp
    · intro res h1 h2 h3
      have := hOk res h1 h2 h3
      simp at this
    · intro hf
      obtain ⟨e, he⟩ := hBad hf
      simp only [Prod.mk.injEq] at he
      exact ⟨he.1, by simp⟩
  | none =>
    obtain ⟨k1, k2, k3, k4⟩ := LoadResource_keeps u1 env
      { Calls := w.Calls ++ [Call.Post (a.Host ++ "/oauth2/token?" ++
          (tokenParams a (ctx.Request.Query "code")).Encode)] ++
          [Call.Get (a.Host ++ "/api/user") (token.TokenType ++ " " ++ token.AccessToken)],
        Reads := w.Reads } a
    have hc := LoadResource_calls u1 env
      { Calls := w.Calls ++ [Call.Post (a.Host ++ "/oauth2/token?" ++
          (tokenParams a (ctx.Request.Query "code")).Encode)] ++
          [Call.Get (a.Host ++ "/api/user") (token.TokenType ++ " " ++ token.AccessToken)],
        Reads := w.Reads } a
    have hp := LoadResource_panic u1 env
      { Calls := w.Calls ++ [Call.Post (a.Host ++ "/oauth2/token?" ++
          (tokenParams a (ctx.Request.Query "code")).Encode)] ++
          [Call.Get (a.Host ++ "/api/user") (token.TokenType ++ " " ++ token.AccessToken)],
        Reads := w.Reads } a
    have hid : ∀ res, env.GetUser (w.Calls.length + 1) (a.Host ++ "/api/user")
            (token.TokenType ++ " " ++ token.AccessToken) = Except.ok res →
          res.ResCode = OK → res.Data.illTyped = false →
        u1.Id = res.Data.id.getD "" ∧ u1.Fullname = res.Data.fullname.getD "" ∧
        u1.Dn = res.Data.dn.getD "" := by
      intro res h1 h2 h3
      have := hOk res h1 h2 h3
      simp only [Prod.mk.injEq] at this
      rw [this.1]
      simp [UserData.unmarshal, newUser]
    have hnf : ¬ ((∃ e, env.GetUser (w.Calls.length + 1) (a.Host ++ "/api/user")
            (token.TokenType ++ " " ++ token.AccessToken) = Except.error e) ∨
        (∃ res, env.GetUser (w.Calls.length + 1) (a.Host ++ "/api/user")
            (token.TokenType ++ " " ++ token.AccessToken) = Except.ok res ∧
          res.ResCode ≠ OK)) := by
      intro hf
      obtain ⟨e, he⟩ := hBad hf
      simp at he
    by_cases hauto : a.AutoLoadResource = true
    · simp only [hauto, if_true]
      rcases hl : u1.LoadResource env
          { Calls := w.Calls ++ [Call.Post (a.Host ++ "/oauth2/token?" ++
              (tokenParams a (ctx.Request.Query "code")).Encode)] ++
              [Call.Get (a.Host ++ "/api/user") (token.TokenType ++ " " ++ token.AccessToken)],
            Reads := w.Reads } a with ⟨u2, e2, w3⟩
      rw [hl] at k1 k2 k3 k4 hc hp
      simp only at k1 k2 k3 k4 hc hp
      have hnp : ∀ msg, e2 ≠ some (Failure.panic msg) := by
        intro msg he2
        obtain ⟨res, before, after, hr, -, hd⟩ := hp msg he2
        rw [htok] at hr
        simp only [List.length_append, List.length_singleton] at hr
        exact hnonull res before after hr hd
      have hbranch : (match (u2, e2, w3) with
          | (_, some (Failure.panic msg), w3) => (ctx.Panic msg, w3)
          | (user2, _, w3) =>
            (loginSucceeded (ctx.SessionSet SESSION_KEY_USER (SessionValue.user user2)), w3)) =
          (loginSucceeded (ctx.SessionSet SESSION_KEY_USER (SessionValue.user u2)), w3) := by
        rcases e2 with _ | e2
        · rfl
        · cases e2 with
          | error m => rfl
          | panic m => exact absurd rfl (hnp m)
      rw [hbranch]
      refine ⟨u2, rfl, SessionUser_loginSucceeded ctx u2, k4.trans htok, ?_, ?_, ?_⟩
      · show List.take (w.Calls.length + 2) w3.Calls = _
        rw [hc]
        simp only [List.append_assoc, List.singleton_append, List.cons_append, List.nil_append]
        rw [List.take_append]
        rfl
      · intro res h1 h2 h3
        rw [k1, k2, k3]
        exact hid res h1 h2 h3
      · intro hf
        exact absurd hf hnf
    · simp only [hauto]
      refine ⟨u1, rfl, SessionUser_loginSucceeded ctx u1, htok, ?_, hid, ?_⟩
      · simp
      · intro hf
        exact absurd hf hnf

/-- C9 amended, for a browser callback answered well by the provider. -/
theorem CheckLoginFilter_callback_stores_witness :
    ∃ stored : User,
      (CheckLoginFilter exAuth (exEnv 1061) exWorld exCtxCallback).1.SessionUser =
        some stored ∧ stored.Token = exToken := by
  obtain ⟨stored, -, h2, h3, -⟩ := CheckLoginFilter_callback_stores exAuth (exEnv 1061)
    exWorld exCtxCallback exToken (by decide) rfl rfl
    (by intro res before after h; cases h; simp)
  exact ⟨stored, h2, h3⟩

/-! ## C10: a callback whose resource fetch fails -/

/-- C10 fails as stated: when the user payload itself carries a `resourceMap`
member and the resource fetch then fails, the stored user's resource map is
the one decoded from the user payload, not an empty one. -/
theorem resources_failed_map_from_identity :
    exAuth.AutoLoadResource = true ∧
    exCtxCallback.Request.Query "code" ≠ "" ∧
    (queryTokenFromOauth2 exAuth (exEnvMapInIdentity 1061) exWorld "abc").2.1 = none ∧
    (exEnvMapInIdentity 1061).GetUser 1 "https://sso/api/user" "Bearer tok" =
      Except.ok { ResCode := 0, ResMsg := "ok",
                  Data := { exUserData with
                    resourceMap :=
                      MapMember.object [("manage_users", exResource 2 "manage_users")] } } ∧
    (exEnvMapInIdentity 1061).GetUserResources 2 "https://sso/api/userResources" "Bearer tok" =
      Except.error "connection refused" ∧
    ((CheckLoginFilter exAuth (exEnvMapInIdentity 1061) exWorld exCtxCallback).1.SessionUser).map
        (fun u => u.ResourceMap) =
      some [("manage_users", exResource 2 "manage_users")] ∧
    (CheckLoginFilter exAuth (exEnvMapInIdentity 1061) exWorld exCtxCallback).1.Written =
      [Output.Redirect 302 "/admin"] :=
  ⟨by decide, by decide, by decide, rfl, rfl, by decide, by decide⟩

/-- C10, amended. On a callback with auto-load on, when the code exchange and
the identity fetch succeed and the resource fetch fails, the session still
gets a user with the identity of the payload and the exchanged token, the
login-success answer is still given (200 for XHR, else a redirect to `state`
or `/`), and three provider calls were made. The stored resource map is what
the identity decoding left: empty when the user payload has no `resourceMap`
member or a null one, the entries of that member otherwise. -/
theorem CheckLoginFilter_callback_resources_failed (a : Auth) (env : Env) (w : World)
    (ctx : Context) (token : Token) (res : ResponseBody UserData)
    (hcode : ctx.Request.Query "code" ≠ "")
    (hreply : env.PostToken w.Calls.length (a.Host ++ "/oauth2/token?" ++
      (tokenParams a (ctx.Request.Query "code")).Encode) = (token, none))
    (herr : token.Error = "")
    (hauto : a.AutoLoadResource = true)
    (hident : env.GetUser (w.Calls.length + 1) (a.Host ++ "/api/user")
      (token.TokenType ++ " " ++ token.AccessToken) = Except.ok res)
    (hok : res.ResCode = OK) (htyped : res.Data.illTyped = false)
    (hfail : (∃ e, env.GetUserResources (w.Calls.length + 2) (a.Host ++ "/api/userResources")
        (token.TokenType ++ " " ++ token.AccessToken) = Except.error e) ∨
      (∃ r, env.GetUserResources (w.Calls.length + 2) (a.Host ++ "/api/userResources")
        (token.TokenType ++ " " ++ token.AccessToken) = Except.ok r ∧ r.ResCode ≠ OK) ∨
      (∃ r left, env.GetUserResources (w.Calls.length + 2) (a.Host ++ "/api/userResources")
        (token.TokenType ++ " " ++ token.AccessToken) = Except.ok r ∧
          r.Data = ResourcesData.failed left)) :
    ∃ stored : User,
      (CheckLoginFilter a env w ctx).1 =
        loginSucceeded (ctx.SessionSet SESSION_KEY_USER (SessionValue.user stored)) ∧
      (CheckLoginFilter a env w ctx).1.SessionUser = some stored ∧
      stored.Id = res.Data.id.getD "" ∧ stored.Fullname = res.Data.fullname.getD "" ∧
      stored.Dn = res.Data.dn.getD "" ∧
      stored.Token = token ∧
      (res.Data.resourceMap = MapMember.absent ∨ res.Data.resourceMap = MapMember.null →
        stored.ResourceMap = []) ∧
      (∀ entries, res.Data.resourceMap = MapMember.object entries →
        stored.ResourceMap = entries.foldl (fun m e => GoMap.set m e.1 e.2) []) ∧
      (CheckLoginFilter a env w ctx).1.Written = ctx.Written ++
        (if ctx.Request.Header "x-requested-with" = XHR
          then [Output.WriteHeader 200, Output.WriteString LoginOkMessage]
          else [Output.Redirect 302
            (if ctx.Request.Query "state" ≠ "" then ctx.Request.Query "state" else "/")]) ∧
      (CheckLoginFilter a env w ctx).2.Calls =
        w.Calls ++ [Call.Post (a.Host ++ "/oauth2/token?" ++
            (tokenParams a (ctx.Request.Query "code")).Encode),
          Call.Get (a.Host ++ "/api/user") (token.TokenType ++ " " ++ token.AccessToken),
          Call.Get (a.Host ++ "/api/userResources")
            (token.TokenType ++ " " ++ token.AccessToken)] := by
  have hOk := Init_ok ({ newUser with Token := token } : User) env
    { w with Calls := w.Calls ++ [Call.Post (a.Host ++ "/oauth2/token?" ++
      (tokenParams a (ctx.Request.Query "code")).Encode)] } a res
    (by simpa using hident) hok htyped
  have hL := LoadResource_failed (res.Data.unmarshal { newUser with Token := token }) env
    { Calls := w.Calls ++ [Call.Post (a.Host ++ "/oauth2/token?" ++
          (tokenParams a (ctx.Request.Query "code")).Encode)] ++
        [Call.Get (a.Host ++ "/api/user") (token.TokenType ++ " " ++ token.AccessToken)],
      Reads := w.Reads } a
    (by simpa [UserData.unmarshal, Nat.add_assoc] using hfail)
  obtain ⟨u2, e, hl, hmap, hid, hfn, hdn, htok, -⟩ := hL
  have hres : CheckLoginFilter a env w ctx =
      (loginSucceeded (ctx.SessionSet SESSION_KEY_USER (SessionValue.user u2)),
        { Calls := w.Calls ++ [Call.Post (a.Host ++ "/oauth2/token?" ++
            (tokenParams a (ctx.Request.Query "code")).Encode)] ++
          [Call.Get (a.Host ++ "/api/user") (token.TokenType ++ " " ++ token.AccessToken)] ++
          [Call.Get (a.Host ++ "/api/userResources")
            (token.TokenType ++ " " ++ token.AccessToken)], Reads := w.Reads }) := by
    rw [CheckLoginFilter_exchange_ok a env w ctx token hcode hreply herr, hOk]
    simp only [hauto, if_true]
    rw [hl]
    simp [UserData.unmarshal]
  rw [hres]
  refine ⟨u2, rfl, SessionUser_loginSucceeded ctx u2, ?_, ?_, ?_, ?_, ?_, ?_, ?_, ?_⟩
  · rw [hid]; simp [UserData.unmarshal, newUser]
  · rw [hfn]; simp [UserData.unmarshal, newUser]
  · rw [hdn]; simp [UserData.unmarshal, newUser]
  · rw [htok]; simp [UserData.unmarshal]
  · intro h
    rw [hmap]
    rcases h with h | h <;> simp [UserData.unmarshal, newUser, h]
  · intro entries h
    rw [hmap]
    simp [UserData.unmarshal, newUser, h]
  · rw [loginSucceeded_eq]
    rfl
  · simp

/-- C10 amended, for a browser callback with the resource endpoint unreachable. -/
theorem CheckLoginFilter_callback_resources_failed_witness :
    ∃ stored : User,
      (CheckLoginFilter exAuth (exEnvNoResources 1061) exWorld exCtxCallback).1.SessionUser =
        some stored ∧
      stored.Id = "u1" ∧ stored.Token = exToken ∧ stored.ResourceMap = [] := by
  obtain ⟨stored, -, h2, h3, -, -, h6, h7, -⟩ :=
    CheckLoginFilter_callback_resources_failed exAuth (exEnvNoResources 1061) exWorld
      exCtxCallback exToken { ResCode := 0, ResMsg := "ok", Data := exUserData }
      (by decide) rfl rfl rfl rfl rfl rfl (Or.inl ⟨"connection refused", rfl⟩)
  exact ⟨stored, h2, h3, h6, h7 (Or.inl rfl)⟩

/-! ## C11: logout -/

/-- C11. Whatever the session holds and whatever the provider answers to the
revoke call (transport error, any status code), after `Logout` the session
store is empty, so the user key is absent, and the response is a 302 redirect
to the authorize endpoint whose `state` is the caller's `state`. The revoke
request is the one call made when the session held a user; without one no call
is made. -/
theorem Logout_flushes (a : Auth) (env : Env) (w : World) (ctx : Context) (state : String) :
    (Logout a env w ctx state).1.CruSession = [] ∧
    GoMap.get (Logout a env w ctx state).1.CruSession SESSION_KEY_USER = none ∧
    (Logout a env w ctx state).1.SessionUser = none ∧
    (Logout a env w ctx state).1.Written = ctx.Written ++
      [Output.Redirect 302 (a.Host ++ "/oauth2/authorize?" ++
        ("client_id=" ++ QueryEscape (FormatInt a.ClientId) ++
         "&redirect_uri=" ++ QueryEscape a.RedirectUri ++
         "&response_type=code" ++
         "&scope=" ++ QueryEscape a.Scope ++
         "&state=" ++ QueryEscape state))] ∧
    (∀ user, ctx.SessionUser = some user →
      (Logout a env w ctx state).2.Calls = w.Calls ++
        [Call.Delete ("https://auth.yxapp.in/oauth2/token?access_token=" ++
          user.Token.AccessToken)]) ∧
    (ctx.SessionUser = none → (Logout a env w ctx state).2 = w) := by
  refine ⟨rfl, rfl, rfl, ?_, ?_, ?_⟩
  · simp only [Logout, Context.Redirect, StatusFound]
    rw [authorizeParams_Encode]
  · intro user huser
    simp only [Logout, huser, World.record]
    cases env.Revoke w.Calls.length
        ("https://auth.yxapp.in/oauth2/token?access_token=" ++ user.Token.AccessToken) with
    | error e => rfl
    | ok status => by_cases hs : status = 200 <;> simp [hs]
  · intro hnone
    simp only [Logout, hnone]

/-! ## C18: `Login` stores the token -/

/-- C18. After `Login(code)` whose exchange succeeds, the value under the
session user key is the exchanged token and the token request is the only
provider call; so the session holds no `User`, `CurrentUser` is the anonymous
user with an empty resource map, and a following request without `code` on
that session is answered by `CheckLoginFilter` with `RedirectToLogin` (302 to
the authorize endpoint, or 401 for XHR) without any provider call. -/
theorem Login_stores_token (a : Auth) (env : Env) (w : World) (code : String)
    (ctx : Context) (token : Token)
    (hreply : env.PostToken w.Calls.length
      (a.Host ++ "/oauth2/token?" ++ (tokenParams a code).Encode) = (token, none))
    (herr : token.Error = "") :
    GoMap.get (Login a env w code ctx).1.CruSession SESSION_KEY_USER =
      some (SessionValue.token token) ∧
    (Login a env w code ctx).2.Calls =
      w.Calls ++ [Call.Post (a.Host ++ "/oauth2/token?" ++ (tokenParams a code).Encode)] ∧
    (Login a env w code ctx).1.SessionUser = none ∧
    (CurrentUser a (Login a env w code ctx).1).Id = " AnonymousUser" ∧
    (CurrentUser a (Login a env w code ctx).1).ResourceMap = [] ∧
    (∀ (env2 : Env) (w2 : World) (ctx2 : Context),
      ctx2.CruSession = (Login a env w code ctx).1.CruSession →
      ctx2.Request.Query "code" = "" →
      CheckLoginFilter a env2 w2 ctx2 = (RedirectToLogin a ctx2, w2) ∧
      (CheckLoginFilter a env2 w2 ctx2).1.Written = ctx2.Written ++
        (if ctx2.Request.Header "x-requested-with" = XHR
          then [Output.WriteHeader 401, Output.WriteString UnauthorizedMessage]
          else [Output.Redirect 302
            (a.Host ++ "/oauth2/authorize?" ++
              (authorizeParams a ctx2.Request.URI).Encode)])) := by
  have hL : Login a env w code ctx =
      (loginSucceeded (ctx.SessionSet SESSION_KEY_USER (SessionValue.token token)),
        { w with Calls := w.Calls ++
          [Call.Post (a.Host ++ "/oauth2/token?" ++ (tokenParams a code).Encode)] }) := by
    unfold Login
    rw [queryTokenFromOauth2_eq a env w code token none hreply]
    simp [herr]
  have hget : GoMap.get (Login a env w code ctx).1.CruSession SESSION_KEY_USER =
      some (SessionValue.token token) := by
    rw [hL, loginSucceeded_eq]
    simp [Context.SessionSet, GoMap.get_set]
  have hnone : (Login a env w code ctx).1.SessionUser = none := by
    unfold Context.SessionUser
    rw [hget]
  refine ⟨hget, by rw [hL], hnone, ?_, ?_, ?_⟩
  · rw [CurrentUser_none a _ hnone]
  · rw [CurrentUser_none a _ hnone]
  · intro env2 w2 ctx2 hsess hcode
    have hnone2 : ctx2.SessionUser = none := by
      unfold Context.SessionUser
      rw [hsess, hget]
    rw [CheckLoginFilter_no_user a env2 w2 ctx2 hcode hnone2, RedirectToLogin_eq]
    exact ⟨rfl, rfl⟩

/-- C18, for a browser login answered well by the provider. -/
theorem Login_stores_token_witness :
    GoMap.get (Login exAuth (exEnv 1061) exWorld "abc" exCtxCallback).1.CruSession
        SESSION_KEY_USER = some (SessionValue.token exToken) ∧
    (Login exAuth (exEnv 1061) exWorld "abc" exCtxCallback).1.SessionUser = none :=
  ⟨(Login_stores_token exAuth (exEnv 1061) exWorld "abc" exCtxCallback exToken rfl rfl).1,
   (Login_stores_token exAuth (exEnv 1061) exWorld "abc" exCtxCallback exToken
      rfl rfl).2.2.1⟩

/-! ## C16: what a refresh fetches -/

/-- C16 fails as stated: the refresh of a stale user sends the resource request
only. The user endpoint, which would now report the full name `Renamed`, is
not asked, and the stored user has new resources and a new stamp next to the
old identity. -/
theorem refresh_skips_identity :
    exAuth.AutoLoadResource = true ∧
    sub64 ((exEnvRenamed 1061).Now exWorld.Reads) exUser.CacheTime > exAuth.CacheExpire ∧
    (exEnvRenamed 1061).GetUser 0 "https://sso/api/user" "Bearer tok" =
      Except.ok { ResCode := 0, ResMsg := "ok",
                  Data := { exUserData with fullname := some "Renamed" } } ∧
    (CheckLoginFilter exAuth (exEnvRenamed 1061) exWorld exCtx).2.Calls =
      [Call.Get "https://sso/api/userResources" "Bearer tok"] ∧
    (CheckLoginFilter exAuth (exEnvRenamed 1061) exWorld exCtx).1.SessionUser =
      some { exUser with
        Resources := [exResource 2 "manage_users"]
        ResourceMap := [("manage_users", exResource 2 "manage_users")]
        CacheTime := 1061 } :=
  ⟨by decide, by decide, rfl, by decide, by decide⟩

/-- C16, amended. When a stale cached user is refreshed and the resource fetch
succeeds, the one provider call is `GET /api/userResources` with the cached
token's credentials; the identity is not fetched again. The user written back
to the session has the fetched resources, the map built from them and the new
stamp, and the `Id`, `Fullname`, `Dn` and `Token` it had; nothing is written
on the response. -/
theorem CheckLoginFilter_refresh_resources_only (a : Auth) (env : Env) (w : World)
    (ctx : Context) (user : User) (res : ResponseBody ResourcesData) (rs : List Resource)
    (hcode : ctx.Request.Query "code" = "")
    (huser : ctx.SessionUser = some user)
    (hauto : a.AutoLoadResource = true)
    (hstale : sub64 (env.Now w.Reads) user.CacheTime > a.CacheExpire)
    (hreply : env.GetUserResources w.Calls.length (a.Host ++ "/api/userResources")
      (user.Token.TokenType ++ " " ++ user.Token.AccessToken) = Except.ok res)
    (hok : res.ResCode = OK) (hdata : res.Data = ResourcesData.decoded rs) :
    (CheckLoginFilter a env w ctx).2.Calls =
      w.Calls ++ [Call.Get (a.Host ++ "/api/userResources")
        (user.Token.TokenType ++ " " ++ user.Token.AccessToken)] ∧
    (CheckLoginFilter a env w ctx).1.SessionUser =
      some { user with
        Resources := rs
        ResourceMap := buildResourceMap rs
        CacheTime := env.Now (w.Reads + 1) } ∧
    (∃ stored, (CheckLoginFilter a env w ctx).1.SessionUser = some stored ∧
      stored.Id = user.Id ∧ stored.Fullname = user.Fullname ∧ stored.Dn = user.Dn ∧
      stored.Token = user.Token) ∧
    (CheckLoginFilter a env w ctx).1.Written = ctx.Written := by
  have hl := LoadResource_ok user env { w with Reads := w.Reads + 1 } a res rs hreply hok hdata
  have hres : CheckLoginFilter a env w ctx =
      (ctx.SessionSet SESSION_KEY_USER (SessionValue.user
          { user with
            Resources := rs
            ResourceMap := buildResourceMap rs
            CacheTime := env.Now (w.Reads + 1) }),
        { Calls := w.Calls ++ [Call.Get (a.Host ++ "/api/userResources")
            (user.Token.TokenType ++ " " ++ user.Token.AccessToken)],
          Reads := w.Reads + 1 + 1 }) := by
    rw [CheckLoginFilter_cached a env w ctx user hcode huser, if_pos hauto, if_pos hstale, hl]
  have hs : (ctx.SessionSet SESSION_KEY_USER (SessionValue.user
          { user with
            Resources := rs
            ResourceMap := buildResourceMap rs
            CacheTime := env.Now (w.Reads + 1) })).SessionUser =
      some { user with
        Resources := rs
        ResourceMap := buildResourceMap rs
        CacheTime := env.Now (w.Reads + 1) } := by
    simp [Context.SessionUser, Context.SessionSet, GoMap.get_set]
  rw [hres]
  exact ⟨rfl, hs, ⟨_, hs, rfl, rfl, rfl, rfl⟩, rfl⟩

/-- C16 amended, for `exUser` read 61 seconds after its stamp. -/
theorem CheckLoginFilter_refresh_resources_only_witness :
    (CheckLoginFilter exAuth (exEnv 1061) exWorld exCtx).2.Calls =
      exWorld.Calls ++ [Call.Get (exAuth.Host ++ "/api/userResources")
        (exUser.Token.TokenType ++ " " ++ exUser.Token.AccessToken)] :=
  (CheckLoginFilter_refresh_resources_only exAuth (exEnv 1061) exWorld exCtx exUser
    { ResCode := 0, ResMsg := "ok",
      Data := ResourcesData.decoded [exResource 2 "manage_users"] }
    [exResource 2 "manage_users"]
    (by decide) (by decide) (by decide) (by decide) rfl rfl rfl).1

/-! ## C15: `cache_expire` at start-up -/

/-- C15 fails on the code: with auto-load on and a parseable client id, a
`CacheExpire` that is not a number (`abc`, or the empty string) does not stop
`NewAuthService`; whatever the case table, the service is built with a cache
life of 0. -/
theorem NewAuthService_unparseable_cacheExpire :
    (ParseInt "abc").2 = some "invalid syntax" ∧
    (ParseInt "").2 = some "invalid syntax" ∧
    NewAuthService asciiLower (some exConfigBadExpire) =
      Except.ok
        { ClientId := 7, ClientSecret := "secret", RedirectUri := "http://app/cb",
          Host := "https://sso", AutoLoadResource := true, Scope := "all:all",
          CacheExpire := 0, UrlControl := [("get:/admin", ["manage_users", "audit"])] } ∧
    NewAuthService asciiLower (some { exConfigBadExpire with CacheExpire := "" }) =
      Except.ok
        { ClientId := 7, ClientSecret := "secret", RedirectUri := "http://app/cb",
          Host := "https://sso", AutoLoadResource := true, Scope := "all:all",
          CacheExpire := 0, UrlControl := [("get:/admin", ["manage_users", "audit"])] } ∧
    (∀ lower : Char → Char, ∃ a,
      NewAuthService lower (some exConfigBadExpire) = Except.ok a ∧
      a.AutoLoadResource = true ∧ a.CacheExpire = 0) ∧
    (∀ lower : Char → Char, ∃ a,
      NewAuthService lower (some { exConfigBadExpire with CacheExpire := "" }) =
        Except.ok a ∧
      a.AutoLoadResource = true ∧ a.CacheExpire = 0) :=
  ⟨by decide, by decide, rfl, rfl, fun _ => ⟨_, rfl, rfl, rfl⟩, fun _ => ⟨_, rfl, rfl, rfl⟩⟩

/-! ## C17: transport errors in the API client -/

/-- C17 fails on the code: when the round trip fails, `DeleteUserFromRole`
returns `-1` with a nil error, and `GetAllResources` and `GetUserResources`
pass the nil response to `processResp`, which panics on it; `AddUserToRole`
returns the transport error. -/
theorem ApiAuth_transport_error_lost :
    exApiEnvDown.Response
        { Method := "DELETE", Url := "https://sso/api/roleUsers/5", Headers := exApi.headers,
          Body := "[]" } = (none, some "connection refused") ∧
    exApi.DeleteUserFromRole exApiEnvDown 5 ["u1"] = Outcome.returned (-1) none ∧
    exApi.GetAllResources exApiEnvDown =
      Outcome.panicked "invalid memory address or nil pointer dereference" ∧
    exApi.GetUserResources exApiEnvDown "u1" =
      Outcome.panicked "invalid memory address or nil pointer dereference" ∧
    exApi.AddUserToRole exApiEnvDown 5 [] =
      Outcome.returned (-1) (some "connection refused") :=
  ⟨rfl, rfl, rfl, rfl, rfl⟩

/-! ## C14: the policy table built at start-up -/

/-- C14. For a configuration whose `url_control` keys are pairwise distinct
after lower-casing, the table of the service `NewAuthService` returns has
exactly the lower-cased keys, and under `lower(k)` the pieces of `lower(v)`
cut at every `|` (no piece holds a `|`; joined by `|` they give `lower(v)`
back). Hence every rule lists at least one key, every required key is
lower-case (it is the lower-casing of a string, each of its runes is a
lower-cased rune, and with an idempotent case table it is fixed by
lower-casing), and an empty value gives the one required key `""`. This holds
for every case table `lower`. -/
theorem NewAuthService_UrlControl (lower : Char → Char) (config : Config) (a : Auth)
    (hnew : NewAuthService lower (some config) = Except.ok a)
    (hdistinct : (config.UrlControl.map (fun e => ToLower lower e.1)).Nodup) :
    (∀ key, (GoMap.get a.UrlControl key).isSome = true ↔
      ∃ e ∈ config.UrlControl, ToLower lower e.1 = key) ∧
    (∀ e ∈ config.UrlControl,
      GoMap.get a.UrlControl (ToLower lower e.1) = some (Split (ToLower lower e.2) '|')) ∧
    (∀ key rs, GoMap.get a.UrlControl key = some rs →
      rs ≠ [] ∧
      (∀ r ∈ rs, ∃ s, r = ToLower lower s) ∧
      (∀ r ∈ rs, ∀ c ∈ r.data, ∃ c0, c = lower c0) ∧
      ((∀ c, lower (lower c) = lower c) → ∀ r ∈ rs, ToLower lower r = r)) ∧
    (∀ e ∈ config.UrlControl, e.2 = "" →
      GoMap.get a.UrlControl (ToLower lower e.1) = some [""]) ∧
    (∀ e ∈ config.UrlControl,
      (∀ r ∈ Split (ToLower lower e.2) '|', '|' ∉ r.data) ∧
      List.intercalate ['|'] ((Split (ToLower lower e.2) '|').map String.data) =
        (ToLower lower e.2).data) := by
  rw [NewAuthService_UrlControl_eq lower config a hnew]
  refine ⟨?_, ?_, ?_, ?_, fun e _ => Split_spec (ToLower lower e.2) '|'⟩
  · intro key
    constructor
    · intro h
      obtain ⟨rs, hrs⟩ := Option.isSome_iff_exists.mp h
      obtain ⟨e, he, hk, -⟩ := buildUrlControl_rule lower config.UrlControl key rs hrs
      exact ⟨e, he, hk⟩
    · rintro ⟨e, he, rfl⟩
      rw [get_buildUrlControl_of_mem lower config.UrlControl hdistinct e he]
      rfl
  · intro e he
    exact get_buildUrlControl_of_mem lower config.UrlControl hdistinct e he
  · intro key rs hrs
    obtain ⟨e, -, -, rfl⟩ := buildUrlControl_rule lower config.UrlControl key rs hrs
    exact ⟨Split_ne_nil _ _, Split_ToLower_image lower e.2 '|',
      Split_ToLower_runes lower e.2 '|',
      fun hidem => Split_ToLower_lower lower hidem e.2 '|'⟩
  · intro e he hv
    rw [get_buildUrlControl_of_mem lower config.UrlControl hdistinct e he, hv]
    rfl

/-- C14, for a configuration with one rule written with capitals. -/
theorem NewAuthService_UrlControl_witness :
    (∀ c, asciiLower (asciiLower c) = asciiLower c) ∧
    ∃ a, NewAuthService asciiLower (some exConfig) = Except.ok a ∧
      GoMap.get a.UrlControl (ToLower asciiLower "GET:/Admin") =
        some (Split (ToLower asciiLower "Manage_Users|audit") '|') :=
  ⟨toLower_idem, _, rfl,
    (NewAuthService_UrlControl asciiLower exConfig _ rfl (by decide)).2.1
      ("GET:/Admin", "Manage_Users|audit") (by decide)⟩

/-! ## C12: the anonymous user -/

/-- C12. `CurrentUser` returns the stored user when the session holds one, and
otherwise (no value under the key, or a value that is not a `User`) the
anonymous user with an empty resource map. For such a session and a service
built by `NewAuthService`, `CheckAuthorityFilter` denies (appends the 403
denial) exactly when the table has a rule at the lower-cased pattern or at
`lower(method):lower(pattern)`, and otherwise leaves the context as it was. -/
theorem CurrentUser_anonymous_denied (lower : Char → Char) (config : Config) (a : Auth) (ctx : Context)
    (p : String) (hnew : NewAuthService lower (some config) = Except.ok a)
    (hnone : ctx.SessionUser = none) :
    (CurrentUser a ctx).Id = " AnonymousUser" ∧
    (CurrentUser a ctx).Fullname = "未登录用户" ∧
    (CurrentUser a ctx).ResourceMap = [] ∧
    (∀ (ctx2 : Context) (u : User), ctx2.SessionUser = some u → CurrentUser a ctx2 = u) ∧
    (CheckAuthorityFilter lower a ctx p ≠ ctx ↔
      ((GoMap.get a.UrlControl (ToLower lower p)).isSome = true ∨
       (GoMap.get a.UrlControl
          (ToLower lower ctx.Request.Method ++ ":" ++ ToLower lower p)).isSome = true)) ∧
    (CheckAuthorityFilter lower a ctx p = ctx ∨
      CheckAuthorityFilter lower a ctx p =
        { ctx with Written := ctx.Written ++
            (if ctx.Request.Header "x-requested-with" = XHR
              then [Output.WriteHeader 403, Output.WriteString DeniedMessage]
              else [Output.Exception 403]) }) := by
  have hanon := CurrentUser_none a ctx hnone
  have hmap : (CurrentUser a ctx).ResourceMap = [] := by rw [hanon]
  have hrule : ∀ key, (match GoMap.get a.UrlControl key with
      | some resources => rangeResources (CurrentUser a ctx).ResourceMap resources
      | none => true) = !(GoMap.get a.UrlControl key).isSome := by
    intro key
    cases hk : GoMap.get a.UrlControl key with
    | none => rfl
    | some rs =>
      rw [NewAuthService_UrlControl_eq lower config a hnew] at hk
      obtain ⟨e, -, -, rfl⟩ := buildUrlControl_rule lower config.UrlControl key rs hk
      simp only [hmap, Option.isSome_some, Bool.not_true]
      exact rangeResources_nil_map _ (Split_ne_nil _ _)
  have key := CheckAuthorityFilter_cases lower a ctx p _ _ (hrule (ToLower lower p))
    (hrule (ToLower lower ctx.Request.Method ++ ":" ++ ToLower lower p))
  have hne : ({ ctx with Written := ctx.Written ++
            (if ctx.Request.Header "x-requested-with" = XHR
              then [Output.WriteHeader 403, Output.WriteString DeniedMessage]
              else [Output.Exception 403]) } : Context) ≠ ctx := by
    by_cases hx : ctx.Request.Header "x-requested-with" = XHR
    · simp only [hx, if_true]; exact written_append_ne ctx _ _
    · simp only [hx, if_false]; exact written_append_ne ctx _ _
  refine ⟨by rw [hanon], by rw [hanon], hmap, ?_, ?_, ?_⟩
  · intro ctx2 u hu
    unfold CurrentUser
    rw [hu]
  · rw [key]
    cases h1 : (GoMap.get a.UrlControl (ToLower lower p)).isSome <;>
      cases h2 : (GoMap.get a.UrlControl
          (ToLower lower ctx.Request.Method ++ ":" ++ ToLower lower p)).isSome <;>
      simp [hne]
  · rw [key]
    cases h1 : (GoMap.get a.UrlControl (ToLower lower p)).isSome <;>
      cases h2 : (GoMap.get a.UrlControl
          (ToLower lower ctx.Request.Method ++ ":" ++ ToLower lower p)).isSome <;>
      simp

/-- C12, for an empty session and the rule on `get:/admin`. -/
theorem CurrentUser_anonymous_denied_witness :
    exCtxAnonymous.SessionUser = none ∧
    ∃ a, NewAuthService asciiLower (some exConfig) = Except.ok a ∧
      (CurrentUser a exCtxAnonymous).ResourceMap = [] :=
  ⟨by decide, _, rfl,
    (CurrentUser_anonymous_denied asciiLower exConfig _ exCtxAnonymous "/Admin" rfl (by decide)).2.2.1⟩

/-! ## C13: letter case -/

/-- C13 fails as stated: with `/Admin` → `a` and `/admin` → `b` configured and
visited in that order, the table keeps `b` only, and a user holding `b` but
not `a` passes on `/admin` although the rule configured under `/Admin` has the
same lower-cased key. -/
theorem colliding_keys_rule_dropped :
    NewAuthService asciiLower (some exConfigCollide) = Except.ok exAuthCollide ∧
    ("/Admin", "a") ∈ exConfigCollide.UrlControl ∧
    ToLower asciiLower "/admin" = ToLower asciiLower "/Admin" ∧
    GoMap.get (CurrentUser exAuthCollide exCtxHoldsB).ResourceMap "a" = none ∧
    CheckAuthorityFilter asciiLower exAuthCollide exCtxHoldsB "/admin" = exCtxHoldsB :=
  ⟨rfl, by decide, by decide, by decide, by decide⟩

/-- C13, amended. For a service built by `NewAuthService` from any
configuration, two requests of the same user whose methods and patterns agree
after lower-casing get the same decision. When moreover the `url_control` keys
are pairwise distinct after lower-casing, a rule configured under any letter
case sits in the table under its lower-cased key and is enforced on every
request whose lower-cased pattern, or `lower(method):lower(pattern)`, equals
that key: the request passes only if the user holds every piece of the
lower-cased value. -/
theorem CheckAuthorityFilter_case_insensitive (lower : Char → Char) (config : Config)
    (a : Auth) (hnew : NewAuthService lower (some config) = Except.ok a) :
    (∀ (ctx ctx2 : Context) (p p2 : String),
      ctx.SessionUser = ctx2.SessionUser →
      ToLower lower ctx.Request.Method = ToLower lower ctx2.Request.Method →
      ToLower lower p = ToLower lower p2 →
      (CheckAuthorityFilter lower a ctx p = ctx ↔
        CheckAuthorityFilter lower a ctx2 p2 = ctx2)) ∧
    ((config.UrlControl.map (fun e => ToLower lower e.1)).Nodup →
      ∀ e ∈ config.UrlControl, ∀ (ctx : Context) (p : String),
      (ToLower lower p = ToLower lower e.1 ∨
        ToLower lower ctx.Request.Method ++ ":" ++ ToLower lower p = ToLower lower e.1) →
      GoMap.get a.UrlControl (ToLower lower e.1) = some (Split (ToLower lower e.2) '|') ∧
      (CheckAuthorityFilter lower a ctx p = ctx →
        ∀ v ∈ Split (ToLower lower e.2) '|',
          (GoMap.get (CurrentUser a ctx).ResourceMap v).isSome = true)) := by
  have hpass : ∀ (ctx : Context) (p : String), CheckAuthorityFilter lower a ctx p = ctx ↔
      ((match GoMap.get a.UrlControl (ToLower lower p) with
          | some resources => rangeResources (CurrentUser a ctx).ResourceMap resources
          | none => true) = true ∧
        (match GoMap.get a.UrlControl (ToLower lower ctx.Request.Method ++ ":" ++ ToLower lower p) with
          | some resources => rangeResources (CurrentUser a ctx).ResourceMap resources
          | none => true) = true) := by
    intro ctx p
    have key := CheckAuthorityFilter_cases lower a ctx p _ _ rfl rfl
    have hne : ({ ctx with Written := ctx.Written ++
            (if ctx.Request.Header "x-requested-with" = XHR
              then [Output.WriteHeader 403, Output.WriteString DeniedMessage]
              else [Output.Exception 403]) } : Context) ≠ ctx := by
      by_cases hx : ctx.Request.Header "x-requested-with" = XHR
      · simp only [hx, if_true]; exact written_append_ne ctx _ _
      · simp only [hx, if_false]; exact written_append_ne ctx _ _
    rw [key, ← Bool.and_eq_true]
    constructor
    · intro h
      by_contra hc
      rw [if_neg hc] at h
      exact hne h
    · intro h
      rw [if_pos h]
  refine ⟨?_, ?_⟩
  · intro ctx ctx2 p p2 hu hm hp
    have hcu : CurrentUser a ctx = CurrentUser a ctx2 := by
      unfold CurrentUser
      rw [hu]
    rw [hpass ctx p, hpass ctx2 p2, hm, hp, hcu]
  · intro hdistinct e he ctx p hkey
    have hget := get_buildUrlControl_of_mem lower config.UrlControl hdistinct e he
    rw [← NewAuthService_UrlControl_eq lower config a hnew] at hget
    refine ⟨hget, ?_⟩
    intro hp
    have h := (hpass ctx p).mp hp
    rcases hkey with hk | hk
    · have h1 := h.1
      rw [hk, hget] at h1
      exact (rangeResources_eq_true _ _).mp h1
    · have h2 := h.2
      rw [hk, hget] at h2
      exact (rangeResources_eq_true _ _).mp h2

/-- C13 amended, for the rule written `GET:/Admin`. -/
theorem CheckAuthorityFilter_case_insensitive_witness :
    ∃ a, NewAuthService asciiLower (some exConfig) = Except.ok a ∧
      ∀ (ctx ctx2 : Context) (p p2 : String),
        ctx.SessionUser = ctx2.SessionUser →
        ToLower asciiLower ctx.Request.Method = ToLower asciiLower ctx2.Request.Method →
        ToLower asciiLower p = ToLower asciiLower p2 →
        (CheckAuthorityFilter asciiLower a ctx p = ctx ↔
          CheckAuthorityFilter asciiLower a ctx2 p2 = ctx2) :=
  ⟨_, rfl, (CheckAuthorityFilter_case_insensitive asciiLower exConfig _ rfl).1⟩

end filter
